import Mathlib

/-!
# JQNetworkServer: a shallow embedding of `lib/JQNetwork/src/jqnetwork_server.cpp`

The server object, the three process-wide thread pools and the processor
registry are modelled as plain values with explicit state passing.  Closures
handed to thread pools are defunctionalised (`Task`), a call into code that
lives outside this translation unit is recorded as an `Event` or as a
`Posted` entry of the pool that received it.
-/

namespace JQNetwork

/-! ## Containers -/

/-- A `QMap` is kept as an association list with unique keys. -/
abbrev QMap (κ ν : Type) := List (κ × ν)

namespace QMap

variable {κ ν : Type} [DecidableEq κ]

/-- The value stored under `k`, if any (`QMap::find`). -/
def value : QMap κ ν → κ → Option ν
  | [], _ => none
  | (k', v) :: rest, k => if k' = k then some v else value rest k

/-- Whether `k` is a key (`QMap::contains`). -/
def contains (m : QMap κ ν) (k : κ) : Bool := (value m k).isSome

/-- Assignment through `operator[]`: replaces the value of an existing key,
inserts the key otherwise. -/
def set : QMap κ ν → κ → ν → QMap κ ν
  | [], k, v => [(k, v)]
  | (k', v') :: rest, k, v => if k' = k then (k, v) :: rest else (k', v') :: set rest k v

end QMap

/-! ## Values that cross the server's interface -/

/-- The type `JQNetworkConnectPointer`: the address of a connect object. -/
abbrev JQNetworkConnectPointer := Nat

/-- Modelled from the spec: class `JQNetworkPackage` is not part of this
translation unit.  A package carries a slot identifier (the routing key), a
correlation identifier and payload bytes. -/
structure JQNetworkPackage where
  slot : String
  randomFlag : Nat
  payload : List Nat
deriving DecidableEq, Repr

abbrev JQNetworkPackageSharedPointer := JQNetworkPackage

/-- What `registerProcessor` reads of a processor object: the result of
`availableSlots()`, in the order the range-for at line 198 visits it. -/
structure JQNetworkProcessor where
  availableSlots : List String
deriving DecidableEq, Repr

/-- The type `JQNetworkProcessorPointer`: the address of a processor object.  The
pointer type is declared outside this file; the guard at line 208 tests it
when the handler runs, so the model resolves it against the processor objects
alive at that moment. -/
abbrev JQNetworkProcessorPointer := Nat

/-- The processor objects that are alive, by address. -/
abbrev Processors := QMap Nat JQNetworkProcessor

/-- Observable calls into code outside this file. -/
inductive Event
  | qDebug (message : String)
  | handlePackage (processor : JQNetworkProcessorPointer)
      (connect : JQNetworkConnectPointer) (package : JQNetworkPackageSharedPointer)
  | packageReceivedCallback (callback : Nat)
      (connect : JQNetworkConnectPointer) (package : JQNetworkPackageSharedPointer)
  | createConnect (thread : Nat × Nat) (self rotaryIndex : Nat) (socketDescriptor : Int)
  | callback (id : Nat)
  | listen (address : String) (port : Nat)
  | close
  | newConnectPool (thread : Nat × Nat)
  | clearConnectPool (thread : Nat × Nat)
deriving DecidableEq, Repr

/-! ## The processor registry (`processor_`) -/

/-- The closure built at lines 206-215; it captures `processor` by value. -/
structure ProcessorCallback where
  processor : JQNetworkProcessorPointer
deriving DecidableEq, Repr

/-- Body of the closure, lines 207-215, run while `alive` are the processor
objects that still exist. -/
def ProcessorCallback.call (cb : ProcessorCallback) (alive : Processors)
    (connect : JQNetworkConnectPointer) (package : JQNetworkPackageSharedPointer) :
    List Event :=
  if QMap.contains alive cb.processor then
    [Event.handlePackage cb.processor connect package]
  else
    [Event.qDebug "JQNetworkServer::registerProcessor: processor is null"]

/-- The range-for of lines 198-217 over the declared slots. -/
def registerSlots (processor : JQNetworkProcessorPointer) :
    List String → QMap String ProcessorCallback → QMap String ProcessorCallback × List Event
  | [], processor_ => (processor_, [])
  | currentSlot :: rest, processor_ =>
    if QMap.contains processor_ currentSlot then
      let r := registerSlots processor rest processor_
      (r.1, Event.qDebug ("JQNetworkServer::registerProcessor: double register:" ++ currentSlot) :: r.2)
    else
      registerSlots processor rest (QMap.set processor_ currentSlot ⟨processor⟩)

/-! ## Thread pools -/

/-- The address of a thread pool object. -/
abbrev PoolRef := Nat

/-- A worker thread, named by its pool and its index in the pool; this is
what `QThread::currentThread()` yields inside a task. -/
abbrev QThread := PoolRef × Nat

/-- The closure of lines 224-231: it captures `this` and `rotaryIndex`. -/
structure RunOnConnectThreadCallback where
  self : Nat
  rotaryIndex : Nat
deriving DecidableEq, Repr

/-- The closures this file hands to a thread pool, defunctionalised. -/
inductive Task
  /-- Lines 145-157, posted by `begin`. -/
  | listen (self : Nat)
  /-- Lines 163-188, posted by `begin`. -/
  | createConnectPool (self : Nat)
  /-- Lines 69-75, posted by the destructor. -/
  | close (self : Nat)
  /-- Lines 79-82, posted by the destructor. -/
  | clearConnectPool (self : Nat)
  /-- Lines 234-244, posted by `incomingConnection`. -/
  | createConnect (self : Nat) (runOnConnectThreadCallback : RunOnConnectThreadCallback)
      (socketDescriptor : Int)
  /-- Lines 258-265, posted by `onPackageReceived`. -/
  | packageReceived (connect : JQNetworkConnectPointer)
      (package : JQNetworkPackageSharedPointer) (callback : Nat)
  /-- Any other `std::function< void() >`, as given to the closure of lines 224-231. -/
  | callback (id : Nat)
deriving DecidableEq, Repr

/-- One task handed to a pool: the worker it is queued on (`none` when the
call names no worker) and whether the caller waits for it. -/
structure Posted where
  task : Task
  worker : Option Nat
  blocking : Bool
deriving DecidableEq, Repr

/-- Modelled from the spec: class `JQNetworkThreadPool` is not part of this
translation unit.  A pool is a fixed number of workers, a shared rotary
counter, and the tasks it has been handed so far. -/
structure JQNetworkThreadPool where
  threadCount : Nat
  rotaryIndex : Nat
  posted : List Posted
deriving DecidableEq, Repr

namespace JQNetworkThreadPool

/-- Modelled from the spec: the constructor `JQNetworkThreadPool( threadCount )`;
a new pool has handed out no rotary index and holds no task. -/
def create (threadCount : Nat) : JQNetworkThreadPool := ⟨threadCount, 0, []⟩

/-- Modelled from the spec: `nextRotaryIndex()` returns the shared counter and
increments it. -/
def nextRotaryIndex (pool : JQNetworkThreadPool) : Nat × JQNetworkThreadPool :=
  (pool.rotaryIndex, { pool with rotaryIndex := pool.rotaryIndex + 1 })

/-- Modelled from the spec: `run( task, index )` posts `task` to worker
`index mod workerCount`. -/
def run (pool : JQNetworkThreadPool) (task : Task) (index : Nat) : JQNetworkThreadPool :=
  { pool with posted := pool.posted ++ [⟨task, some (index % pool.threadCount), false⟩] }

/-- Modelled from the spec: `run( task )` with no index posts `task` without
the caller choosing the worker. -/
def runAny (pool : JQNetworkThreadPool) (task : Task) : JQNetworkThreadPool :=
  { pool with posted := pool.posted ++ [⟨task, none, false⟩] }

/-- Modelled from the spec: `waitRun( task )` is the blocking form of `run( task )`. -/
def waitRun (pool : JQNetworkThreadPool) (task : Task) : JQNetworkThreadPool :=
  { pool with posted := pool.posted ++ [⟨task, none, true⟩] }

/-- Modelled from the spec: `waitRunEach( task )` posts `task` to every worker
and blocks until all have run it. -/
def waitRunEach (pool : JQNetworkThreadPool) (task : Task) : JQNetworkThreadPool :=
  { pool with posted := pool.posted ++
      (List.range pool.threadCount).map (fun i => ⟨task, some i, true⟩) }

end JQNetworkThreadPool

/-! ## Process-wide state: the pool objects and the three weak references -/

/-- A pool object together with the strong count of the `QSharedPointer`s
that own it; the pool is torn down when the count reaches zero. -/
structure SharedPool where
  strongref : Nat
  pool : JQNetworkThreadPool
deriving DecidableEq, Repr

/-- Every pool constructed so far, by address, and the three static
`QWeakPointer`s of lines 50-52. -/
structure Process where
  heap : List SharedPool
  globalServerThreadPool_ : Option PoolRef
  globalSocketThreadPool_ : Option PoolRef
  globalProcessorThreadPool_ : Option PoolRef
deriving DecidableEq, Repr

namespace Process

/-- The strong count of the pool at address `a`. -/
def count (g : Process) (a : PoolRef) : Nat :=
  match g.heap[a]? with
  | some c => c.strongref
  | none => 0

/-- The test `if ( weakPointer )` of a `QWeakPointer`: the reference is set and its
pool is still owned. -/
def isLive (g : Process) : Option PoolRef → Bool
  | none => false
  | some a => decide (0 < g.count a)

/-- Overwrite the cell at address `a`. -/
def store (g : Process) (a : PoolRef) (c : SharedPool) : Process :=
  { g with heap := g.heap.set a c }

/-- Apply `f` to the cell at address `a`. -/
def modify (g : Process) (a : PoolRef) (f : SharedPool → SharedPool) : Process :=
  match g.heap[a]? with
  | some c => g.store a (f c)
  | none => g

/-- The call `toStrongRef()` on a reference that is live: one more owner. -/
def retain (g : Process) : Option PoolRef → Process
  | none => g
  | some a => g.modify a (fun c => { c with strongref := c.strongref + 1 })

/-- A `QSharedPointer` lets go of its pool (it is overwritten or destroyed). -/
def release (g : Process) : Option PoolRef → Process
  | none => g
  | some a => g.modify a (fun c => { c with strongref := c.strongref - 1 })

/-- The expression `QSharedPointer< JQNetworkThreadPool >( new JQNetworkThreadPool( n ) )`:
a new pool at the next free address, owned once. -/
def allocate (g : Process) (threadCount : Nat) : PoolRef × Process :=
  (g.heap.length, { g with heap := g.heap ++ [⟨1, JQNetworkThreadPool.create threadCount⟩] })

/-- The shape shared by lines 112-120, 122-130 and 132-140: the weak reference
`global` is promoted when it is live, a pool of `threadCount` workers is
constructed otherwise, and the member that pointed to `held` lets go of it.
The result is the pool the member now points to and the heap afterwards. -/
def acquire (g : Process) (global held : Option PoolRef) (threadCount : Nat) :
    Option PoolRef × Process :=
  if g.isLive global then (global, (g.retain global).release held)
  else (some (g.allocate threadCount).1, (g.allocate threadCount).2.release held)

/-- A weak reference that is null or points to a pool that has been constructed. -/
def inHeap (g : Process) : Option PoolRef → Bool
  | none => true
  | some a => decide (a < g.heap.length)

/-- No pool is owned by anyone (every server has been destroyed, or none was
ever started) and the three weak references are null or point into the heap. -/
def idle (g : Process) : Bool :=
  g.heap.all (fun c => c.strongref == 0) && g.inHeap g.globalServerThreadPool_ &&
    g.inHeap g.globalSocketThreadPool_ && g.inHeap g.globalProcessorThreadPool_

/-- At most one live pool per tier: every pool that is still owned is the
pool one of the three weak references points to. -/
def onePerTier (g : Process) : Bool :=
  (List.range g.heap.length).all (fun b =>
    decide (g.count b = 0) || decide (g.globalServerThreadPool_ = some b) ||
      decide (g.globalSocketThreadPool_ = some b) ||
      decide (g.globalProcessorThreadPool_ = some b))

/-- Call a method of the pool at address `a`. -/
def onPool (g : Process) (a : PoolRef) (f : JQNetworkThreadPool → JQNetworkThreadPool) :
    Process :=
  g.modify a (fun c => { c with pool := f c.pool })

/-- The number of workers of the pool at address `a`. -/
def threadCount (g : Process) (a : PoolRef) : Nat :=
  match g.heap[a]? with
  | some c => c.pool.threadCount
  | none => 0

/-- The tasks handed so far to the pool at address `a`. -/
def postedOn (g : Process) (a : PoolRef) : List Posted :=
  match g.heap[a]? with
  | some c => c.pool.posted
  | none => []

/-- A process in which no server has been started yet. -/
def initial : Process := ⟨[], none, none, none⟩

end Process

/-! ## Settings -/

/-- The fields of `JQNetworkServerSettings` this file reads.  A
`std::function` member is `none` when it holds no target. -/
structure JQNetworkServerSettings where
  dutyMark : String
  listenAddress : String
  listenPort : Nat
  globalServerThreadCount : Nat
  globalSocketThreadCount : Nat
  globalProcessorThreadCount : Nat
  packageReceivedCallback : Option Nat
deriving DecidableEq, Repr

/-- The member functions of `JQNetworkServer` bound at lines 170-177. -/
inductive ServerMethod
  | onConnectToHostError
  | onConnectToHostTimeout
  | onConnectToHostSucceed
  | onRemoteHostClosed
  | onReadyToDelete
  | onPackageSending
  | onPackageReceiving
  | onPackageReceived
deriving DecidableEq, Repr

/-- The value of `bind( &JQNetworkServer::method, this, ... )`. -/
structure Bound where
  method : ServerMethod
  self : Nat
deriving DecidableEq, Repr

/-- The fields of `JQNetworkConnectPoolSettings` this file writes. -/
structure JQNetworkConnectPoolSettings where
  connectToHostErrorCallback : Option Bound
  connectToHostTimeoutCallback : Option Bound
  connectToHostSucceedCallback : Option Bound
  remoteHostClosedCallback : Option Bound
  readyToDeleteCallback : Option Bound
  packageSendingCallback : Option Bound
  packageReceivingCallback : Option Bound
  packageReceivedCallback : Option Bound
deriving DecidableEq, Repr

/-- The fields of `JQNetworkConnectSettings` this file writes. -/
structure JQNetworkConnectSettings where
  fileTransferEnabled : Bool
  randomFlagRangeStart : Nat
  randomFlagRangeEnd : Nat
deriving DecidableEq, Repr

/-! ## The server object -/

/-- What `new JQNetworkConnectPool( connectPoolSettings, connectSettings )`
is constructed from. -/
structure JQNetworkConnectPool where
  connectPoolSettings : JQNetworkConnectPoolSettings
  connectSettings : JQNetworkConnectSettings
deriving DecidableEq, Repr

/-- Lines 30-47: a `QTcpServer` that forwards `incomingConnection` to the
server `onIncomingConnectionCallback_` was built for; `listening` is the state
of the underlying `QTcpServer`. -/
structure JQNetworkServerHelper where
  onIncomingConnectionCallback_ : Nat
  listening : Bool
deriving DecidableEq, Repr

/-- The members of `JQNetworkServer`; `self` is the object's address (`this`).
A shared pointer is `none` when null. -/
structure JQNetworkServer where
  self : Nat
  serverSettings_ : JQNetworkServerSettings
  connectPoolSettings_ : JQNetworkConnectPoolSettings
  connectSettings_ : JQNetworkConnectSettings
  nodeMarkSummary_ : String
  serverThreadPool_ : Option PoolRef
  socketThreadPool_ : Option PoolRef
  processorThreadPool_ : Option PoolRef
  tcpServer_ : Option JQNetworkServerHelper
  connectPools_ : QMap QThread (Option JQNetworkConnectPool)
  processor_ : QMap String ProcessorCallback
deriving DecidableEq, Repr

/-- What `begin` takes from outside the server: the NodeMark computation
(`JQNetworkNodeMark::calculateNodeMarkSummary`) and whether
`QTcpServer::listen` succeeds on an address and port. -/
structure Env where
  calculateNodeMarkSummary : String → String
  listen : String → Nat → Bool

namespace JQNetworkServer

/-- The constructor, lines 54-62: the three settings are stored, every other
member is default-constructed. -/
def create (self : Nat) (serverSettings : JQNetworkServerSettings)
    (connectPoolSettings : JQNetworkConnectPoolSettings)
    (connectSettings : JQNetworkConnectSettings) : JQNetworkServer :=
  { self := self
    serverSettings_ := serverSettings
    connectPoolSettings_ := connectPoolSettings
    connectSettings_ := connectSettings
    nodeMarkSummary_ := ""
    serverThreadPool_ := none
    socketThreadPool_ := none
    processorThreadPool_ := none
    tcpServer_ := none
    connectPools_ := []
    processor_ := [] }

/-- A server on which `begin` has not been called: no listening socket and no
thread pool is held. -/
def notStarted (s : JQNetworkServer) : Bool :=
  s.tcpServer_.isNone && s.serverThreadPool_.isNone && s.socketThreadPool_.isNone &&
    s.processorThreadPool_.isNone && s.connectPools_.isEmpty

/-- The number of pool members of the server that point to the pool at
address `b`. -/
def holds (s : JQNetworkServer) (b : Nat) : Nat :=
  (if s.serverThreadPool_ = some b then 1 else 0) +
    (if s.socketThreadPool_ = some b then 1 else 0) +
    (if s.processorThreadPool_ = some b then 1 else 0)

/-- The shared pointers the server holds are counted among the owners of
their pools, as they are for every `QSharedPointer` that is not null. -/
def ownsHeld (s : JQNetworkServer) (g : Process) : Bool :=
  [s.serverThreadPool_, s.socketThreadPool_, s.processorThreadPool_].all
    (fun w => match w with
      | none => true
      | some b => decide (s.holds b ≤ g.count b))

/-- A server on which `begin` has been called, in a process in which its
accept pool and socket pool exist: the listening socket object is there and
every entry of `connectPools_` belongs to a worker of the socket pool. -/
def startedIn (s : JQNetworkServer) (g : Process) : Bool :=
  s.tcpServer_.isSome &&
    match s.serverThreadPool_, s.socketThreadPool_ with
    | some accept, some socket =>
      decide (accept < g.heap.length) && decide (socket < g.heap.length) &&
        s.connectPools_.all
          (fun e => decide (e.1.1 = socket) && decide (e.1.2 < g.threadCount socket))
    | _, _ => false

/-- Lines 194-218.  `none` when `processor` does not point to a live
processor (line 196 dereferences it). -/
def registerProcessor (alive : Processors) (s : JQNetworkServer)
    (processor : JQNetworkProcessorPointer) : Option (JQNetworkServer × List Event) :=
  match QMap.value alive processor with
  | none => none
  | some object =>
    let r := registerSlots processor object.availableSlots s.processor_
    some ({ s with processor_ := r.1 }, r.2)

/-! ### Task bodies -/

/-- Lines 150-156, run on the accept thread.  The second component is the
value written to the captured `listenSucceed`. -/
def listenTask (env : Env) (s : JQNetworkServer) : JQNetworkServer × Bool :=
  let listenSucceed := env.listen s.serverSettings_.listenAddress s.serverSettings_.listenPort
  ({ s with tcpServer_ := some ⟨s.self, listenSucceed⟩ }, listenSucceed)

/-- Lines 167-181 and 183-186: the copies of the two settings objects, with
the callbacks bound and the range set, and the pool constructed from them. -/
def newConnectPool (s : JQNetworkServer) : JQNetworkConnectPool :=
  let connectPoolSettings : JQNetworkConnectPoolSettings :=
    { s.connectPoolSettings_ with
      connectToHostErrorCallback := some ⟨ServerMethod.onConnectToHostError, s.self⟩
      connectToHostTimeoutCallback := some ⟨ServerMethod.onConnectToHostTimeout, s.self⟩
      connectToHostSucceedCallback := some ⟨ServerMethod.onConnectToHostSucceed, s.self⟩
      remoteHostClosedCallback := some ⟨ServerMethod.onRemoteHostClosed, s.self⟩
      readyToDeleteCallback := some ⟨ServerMethod.onReadyToDelete, s.self⟩
      packageSendingCallback := some ⟨ServerMethod.onPackageSending, s.self⟩
      packageReceivingCallback := some ⟨ServerMethod.onPackageReceiving, s.self⟩
      packageReceivedCallback := some ⟨ServerMethod.onPackageReceived, s.self⟩ }
  let connectSettings : JQNetworkConnectSettings :=
    { s.connectSettings_ with
      randomFlagRangeStart := 1000000000
      randomFlagRangeEnd := 1999999999 }
  ⟨connectPoolSettings, connectSettings⟩

/-- Lines 167-187, run on socket thread `currentThread`. -/
def createConnectPoolTask (s : JQNetworkServer) (currentThread : QThread) : JQNetworkServer :=
  { s with connectPools_ := QMap.set s.connectPools_ currentThread (some (newConnectPool s)) }

/-- Lines 73-74, run on the accept thread: the listening socket is closed and
the shared pointer reset. -/
def closeTask (s : JQNetworkServer) : JQNetworkServer :=
  { s with tcpServer_ := none }

/-- Line 81, run on socket thread `currentThread`: the shared pointer stored
under the thread is reset (`operator[]` creates the entry when it is missing). -/
def clearConnectPoolTask (s : JQNetworkServer) (currentThread : QThread) : JQNetworkServer :=
  { s with connectPools_ := QMap.set s.connectPools_ currentThread none }

/-- A blocking task run once on every worker of socket pool `a`, in worker order. -/
def onEachThread (a : PoolRef) (threadCount : Nat)
    (body : JQNetworkServer → QThread → JQNetworkServer) (s : JQNetworkServer) :
    JQNetworkServer :=
  (List.range threadCount).foldl (fun s i => body s (a, i)) s

/-! ### `begin` -/

/-- Lines 112-120. -/
def acquireServerThreadPool (s : JQNetworkServer) (g : Process) : JQNetworkServer × Process :=
  if g.isLive g.globalServerThreadPool_ then
    let g := g.retain g.globalServerThreadPool_
    let g := g.release s.serverThreadPool_
    ({ s with serverThreadPool_ := g.globalServerThreadPool_ }, g)
  else
    let r := g.allocate s.serverSettings_.globalServerThreadCount
    let g := r.2.release s.serverThreadPool_
    ({ s with serverThreadPool_ := some r.1 }, { g with globalServerThreadPool_ := some r.1 })

/-- Lines 122-130. -/
def acquireSocketThreadPool (s : JQNetworkServer) (g : Process) : JQNetworkServer × Process :=
  if g.isLive g.globalSocketThreadPool_ then
    let g := g.retain g.globalSocketThreadPool_
    let g := g.release s.socketThreadPool_
    ({ s with socketThreadPool_ := g.globalSocketThreadPool_ }, g)
  else
    let r := g.allocate s.serverSettings_.globalSocketThreadCount
    let g := r.2.release s.socketThreadPool_
    ({ s with socketThreadPool_ := some r.1 }, { g with globalSocketThreadPool_ := some r.1 })

/-- Lines 132-140. -/
def acquireProcessorThreadPool (s : JQNetworkServer) (g : Process) :
    JQNetworkServer × Process :=
  if g.isLive g.globalProcessorThreadPool_ then
    let g := g.retain g.globalProcessorThreadPool_
    let g := g.release s.processorThreadPool_
    ({ s with processorThreadPool_ := g.globalProcessorThreadPool_ }, g)
  else
    let r := g.allocate s.serverSettings_.globalProcessorThreadCount
    let g := r.2.release s.processorThreadPool_
    ({ s with processorThreadPool_ := some r.1 }, { g with globalProcessorThreadPool_ := some r.1 })

/-- Lines 110-140: the NodeMark and the three pools. -/
def acquirePools (env : Env) (s : JQNetworkServer) (g : Process) : JQNetworkServer × Process :=
  let s := { s with nodeMarkSummary_ := env.calculateNodeMarkSummary s.serverSettings_.dutyMark }
  let r := acquireServerThreadPool s g
  let r := acquireSocketThreadPool r.1 r.2
  acquireProcessorThreadPool r.1 r.2

/-- The address held by a pool member that `acquirePools` has just set. -/
def held : Option PoolRef → PoolRef
  | some a => a
  | none => 0

/-- Lines 108-192: the returned `bool`, the server and the process afterwards. -/
def begin (env : Env) (s : JQNetworkServer) (g : Process) : Bool × JQNetworkServer × Process :=
  let r := acquirePools env s g
  let s := r.1
  let g := r.2
  -- lines 142-158
  let g := g.onPool (held s.serverThreadPool_) (fun pool => pool.waitRun (Task.listen s.self))
  let l := listenTask env s
  let s := l.1
  let listenSucceed := l.2
  if !listenSucceed then (false, s, g)
  else
    -- lines 162-189
    let a := held s.socketThreadPool_
    let s := onEachThread a (g.threadCount a) createConnectPoolTask s
    let g := g.onPool a (fun pool => pool.waitRunEach (Task.createConnectPool s.self))
    (true, s, g)

/-! ### The destructor -/

/-- Lines 64-84, the destructor's body.  `none` when a null pool pointer is
dereferenced. -/
def destructor (s : JQNetworkServer) (g : Process) : Option (JQNetworkServer × Process) :=
  if s.tcpServer_.isNone then some (s, g)
  else
    match s.serverThreadPool_, s.socketThreadPool_ with
    | some accept, some socket =>
      if accept < g.heap.length ∧ socket < g.heap.length then
        let g := g.onPool accept (fun pool => pool.waitRun (Task.close s.self))
        let s := closeTask s
        let g := g.onPool socket (fun pool => pool.waitRunEach (Task.clearConnectPool s.self))
        let s := onEachThread socket (g.threadCount socket) clearConnectPoolTask s
        some (s, g)
      else none
    | _, _ => none

/-- After the destructor's body the members are destroyed: the three pool
pointers let go of their pools. -/
def releaseMembers (s : JQNetworkServer) (g : Process) : Process :=
  ((g.release s.processorThreadPool_).release s.socketThreadPool_).release s.serverThreadPool_

/-- The whole destruction of a server: body, then members. -/
def destroy (s : JQNetworkServer) (g : Process) : Option Process :=
  (destructor s g).map (fun r => releaseMembers r.1 r.2)

/-! ### Accepting and receiving -/

/-- Lines 220-247.  `none` when `socketThreadPool_` is null. -/
def incomingConnection (s : JQNetworkServer) (g : Process) (socketDescriptor : Int) :
    Option Process :=
  match s.socketThreadPool_ with
  | none => none
  | some a =>
    match g.heap[a]? with
    | none => none
    | some c =>
      let r := c.pool.nextRotaryIndex
      let rotaryIndex := r.1
      let runOnConnectThreadCallback : RunOnConnectThreadCallback := ⟨s.self, rotaryIndex⟩
      let pool := r.2.run
        (Task.createConnect s.self runOnConnectThreadCallback socketDescriptor) rotaryIndex
      some (g.store a { c with pool := pool })

/-- Lines 40-43 and 150-151: the listening socket calls `incomingConnection`
once for every socket it accepts, in the order of acceptance. -/
def acceptAll (s : JQNetworkServer) : Process → List Int → Option Process
  | g, [] => some g
  | g, socketDescriptor :: rest =>
    match incomingConnection s g socketDescriptor with
    | none => none
    | some g1 => acceptAll s g1 rest

/-- Line 230, the body of the closure of lines 224-231 applied to `callback`;
`s` is the server the closure captured. -/
def runOnConnectThread (r : RunOnConnectThreadCallback) (s : JQNetworkServer) (g : Process)
    (callback : Task) : Option Process :=
  match s.socketThreadPool_ with
  | none => none
  | some a =>
    match g.heap[a]? with
    | none => none
    | some c =>
      let pool := c.pool.run callback r.rotaryIndex
      some (g.store a { c with pool := pool })

/-- Modelled from the spec: the macro `JQNETWORK_NULLPTR_CHECK` is defined
outside this translation unit.  It is taken as the null check its name says:
when its argument is null it reports that and returns from the enclosing
function (the log line stands for whatever it reports).  The result is `true`
when the function goes on. -/
def JQNETWORK_NULLPTR_CHECK {α : Type} (ptr : Option α) : Bool × List Event :=
  match ptr with
  | some _ => (true, [])
  | none => (false, [Event.qDebug "onPackageReceived: serverSettings_->packageReceivedCallback is null"])

/-- Lines 249-267: the process afterwards and what the call itself did
inline.  `none` when `processorThreadPool_` is null. -/
def onPackageReceived (s : JQNetworkServer) (g : Process)
    (connect : JQNetworkConnectPointer) (package : JQNetworkPackageSharedPointer) :
    Option (Process × List Event) :=
  let check := JQNETWORK_NULLPTR_CHECK s.serverSettings_.packageReceivedCallback
  if !check.1 then some (g, check.2)
  else
    match s.serverSettings_.packageReceivedCallback, s.processorThreadPool_ with
    | some callback, some a =>
      match g.heap[a]? with
      | none => none
      | some c =>
        let pool := c.pool.runAny (Task.packageReceived connect package callback)
        some (g.store a { c with pool := pool }, check.2)
    | _, _ => none

end JQNetworkServer

/-- A worker running a task on `currentThread` on behalf of server `s`: the
server afterwards and the calls made into other code.  `none` when the task
dereferences a null pointer. -/
def Task.execute (env : Env) (s : JQNetworkServer) (currentThread : QThread) :
    Task → Option (JQNetworkServer × List Event)
  | Task.listen _ =>
    some ((JQNetworkServer.listenTask env s).1,
      [Event.listen s.serverSettings_.listenAddress s.serverSettings_.listenPort])
  | Task.createConnectPool _ =>
    some (JQNetworkServer.createConnectPoolTask s currentThread,
      [Event.newConnectPool currentThread])
  | Task.close _ =>
    match s.tcpServer_ with
    | some _ => some (JQNetworkServer.closeTask s, [Event.close])
    | none => none
  | Task.clearConnectPool _ =>
    some (JQNetworkServer.clearConnectPoolTask s currentThread,
      [Event.clearConnectPool currentThread])
  | Task.createConnect _ r socketDescriptor =>
    match QMap.value s.connectPools_ currentThread with
    | some (some _) =>
      some (s, [Event.createConnect currentThread r.self r.rotaryIndex socketDescriptor])
    | _ => none
  | Task.packageReceived connect package cb =>
    some (s, [Event.packageReceivedCallback cb connect package])
  | Task.callback n => some (s, [Event.callback n])

/-! ## Concrete servers, processors and packages -/

namespace Example

/-- Server settings: one accept thread, two socket threads, two processor
threads, no package-received callback. -/
def serverSettings : JQNetworkServerSettings :=
  { dutyMark := "duty"
    listenAddress := "0.0.0.0"
    listenPort := 34543
    globalServerThreadCount := 1
    globalSocketThreadCount := 2
    globalProcessorThreadCount := 2
    packageReceivedCallback := none }

/-- The same settings with package-received callback number 3. -/
def serverSettingsWithCallback : JQNetworkServerSettings :=
  { serverSettings with packageReceivedCallback := some 3 }

def connectPoolSettings : JQNetworkConnectPoolSettings :=
  ⟨none, none, none, none, none, none, none, none⟩

/-- Connect settings whose configured correlation range is `[1, 999999999]`. -/
def connectSettings : JQNetworkConnectSettings :=
  { fileTransferEnabled := false
    randomFlagRangeStart := 1
    randomFlagRangeEnd := 999999999 }

/-- Two freshly constructed servers. -/
def serverA : JQNetworkServer :=
  JQNetworkServer.create 1 serverSettings connectPoolSettings connectSettings

def serverB : JQNetworkServer :=
  JQNetworkServer.create 2 serverSettings connectPoolSettings connectSettings

def serverC : JQNetworkServer :=
  JQNetworkServer.create 3 serverSettingsWithCallback connectPoolSettings connectSettings

/-- Processor 10 declares slot `S`, processor 11 declares `S` and `T`. -/
def processors : Processors := [(10, ⟨["S"]⟩), (11, ⟨["S", "T"]⟩)]

/-- A package for slot `S`. -/
def package : JQNetworkPackage := ⟨"S", 0, [1, 2, 3]⟩

/-- An environment in which `listen` succeeds. -/
def listening : Env := ⟨fun dutyMark => dutyMark, fun _ _ => true⟩

/-- An environment in which `listen` fails (say, the port is in use). -/
def portInUse : Env := ⟨fun dutyMark => dutyMark, fun _ _ => false⟩

/-- Server A after processor 10 has registered slot `S`. -/
def registeredA : JQNetworkServer := { serverA with processor_ := [("S", ⟨10⟩)] }

/-- Server A, with slot `S` registered, started in a new process. -/
def startedA : Bool × JQNetworkServer × Process :=
  JQNetworkServer.begin listening registeredA Process.initial

/-- Server C (which has a package-received callback) started in a new process. -/
def startedC : Bool × JQNetworkServer × Process :=
  JQNetworkServer.begin listening serverC Process.initial

/-- Server B started in the process in which server A is running. -/
def startedB : Bool × JQNetworkServer × Process :=
  JQNetworkServer.begin listening serverB startedA.2.2

/-- Server A, already started, calls `begin` again when the port is in use. -/
def retriedA : Bool × JQNetworkServer × Process :=
  JQNetworkServer.begin portInUse startedA.2.1 startedA.2.2

/-- The log line of the handler closure when its processor is gone. -/
def processorIsNull : Event :=
  Event.qDebug "JQNetworkServer::registerProcessor: processor is null"

/-- The log line of `onPackageReceived` when no callback is configured. -/
def callbackIsNull : Event :=
  Event.qDebug "onPackageReceived: serverSettings_->packageReceivedCallback is null"

end Example

/-! ## Lemmas on maps and on the registration loop -/

namespace QMap

variable {κ ν : Type} [DecidableEq κ]

theorem value_set_self (m : QMap κ ν) (k : κ) (v : ν) : value (set m k v) k = some v := by
  induction m with
  | nil => simp [set, value]
  | cons hd tl ih =>
    obtain ⟨k', v'⟩ := hd
    by_cases h : k' = k
    · simp [set, value, h]
    · simp [set, value, h, ih]

theorem value_set_other (m : QMap κ ν) (k k' : κ) (v : ν) (h : k ≠ k') :
    value (set m k v) k' = value m k' := by
  induction m with
  | nil => simp [set, value, h]
  | cons hd tl ih =>
    obtain ⟨k'', v''⟩ := hd
    by_cases h1 : k'' = k
    · subst h1
      simp [set, value, h]
    · by_cases h2 : k'' = k'
      · subst h2
        simp [set, value, h1]
      · simp [set, value, h1, h2, ih]

theorem contains_set (m : QMap κ ν) (k k' : κ) (v : ν) :
    contains (set m k v) k' = true ↔ k = k' ∨ contains m k' = true := by
  by_cases h : k = k'
  · subst h
    simp [contains, value_set_self]
  · simp [contains, value_set_other m k k' v h, h]

end QMap

theorem registerSlots_value_kept (P : JQNetworkProcessorPointer) (slots : List String) :
    ∀ (m : QMap String ProcessorCallback) (slot : String) (cb : ProcessorCallback),
      QMap.value m slot = some cb → QMap.value (registerSlots P slots m).1 slot = some cb := by
  induction slots with
  | nil => intro m slot cb h; simpa [registerSlots] using h
  | cons hd tl ih =>
    intro m slot cb h
    by_cases hc : QMap.contains m hd = true
    · simp only [registerSlots, hc, if_true]
      exact ih m slot cb h
    · simp only [registerSlots, hc]
      apply ih
      have hne : hd ≠ slot := by
        intro e
        subst e
        simp [QMap.contains, h] at hc
      rw [QMap.value_set_other m hd slot _ hne]
      exact h

theorem registerSlots_value_fresh (P : JQNetworkProcessorPointer) (slots : List String) :
    ∀ (m : QMap String ProcessorCallback) (slot : String),
      slot ∈ slots → QMap.contains m slot = false →
      QMap.value (registerSlots P slots m).1 slot = some ⟨P⟩ := by
  induction slots with
  | nil => intro m slot h; simp at h
  | cons hd tl ih =>
    intro m slot hmem hfresh
    by_cases hc : QMap.contains m hd = true
    · have hne : hd ≠ slot := by
        intro e
        subst e
        simp [hfresh] at hc
      simp only [registerSlots, hc, if_true]
      rcases List.mem_cons.mp hmem with e | hin
      · exact absurd e.symm hne
      · exact ih m slot hin hfresh
    · simp only [registerSlots, hc]
      by_cases e : hd = slot
      · subst e
        apply registerSlots_value_kept
        exact QMap.value_set_self m hd _
      · rcases List.mem_cons.mp hmem with e' | hin
        · exact absurd e'.symm e
        · apply ih _ slot hin
          have := QMap.contains_set m hd slot (⟨P⟩ : ProcessorCallback)
          cases hv : QMap.contains (QMap.set m hd (⟨P⟩ : ProcessorCallback)) slot with
          | false => rfl
          | true =>
            rcases this.mp hv with e1 | e2
            · exact absurd e1 e
            · simp [hfresh] at e2

theorem registerSlots_contains (P : JQNetworkProcessorPointer) (slots : List String) :
    ∀ (m : QMap String ProcessorCallback) (slot : String),
      QMap.contains (registerSlots P slots m).1 slot = true ↔
        QMap.contains m slot = true ∨ slot ∈ slots := by
  induction slots with
  | nil => intro m slot; simp [registerSlots]
  | cons hd tl ih =>
    intro m slot
    by_cases hc : QMap.contains m hd = true
    · simp only [registerSlots, hc, if_true]
      rw [ih m slot, List.mem_cons]
      constructor
      · rintro (h | h)
        · exact Or.inl h
        · exact Or.inr (Or.inr h)
      · rintro (h | h | h)
        · exact Or.inl h
        · subst h; exact Or.inl hc
        · exact Or.inr h
    · have hc' : QMap.contains m hd = false := by simpa using hc
      simp only [registerSlots, hc', Bool.false_eq_true, if_false]
      rw [ih, QMap.contains_set, List.mem_cons]
      constructor
      · rintro ((h | h) | h)
        · exact Or.inr (Or.inl h.symm)
        · exact Or.inl h
        · exact Or.inr (Or.inr h)
      · rintro (h | h | h)
        · exact Or.inl (Or.inr h)
        · exact Or.inl (Or.inl h.symm)
        · exact Or.inr h

/-! ## The processor registry -/

open JQNetworkServer

theorem registerProcessor_of_alive (alive : Processors) (s : JQNetworkServer)
    (P : JQNetworkProcessorPointer) (o : JQNetworkProcessor)
    (h : QMap.value alive P = some o) :
    registerProcessor alive s P =
      some ({ s with processor_ := (registerSlots P o.availableSlots s.processor_).1 },
        (registerSlots P o.availableSlots s.processor_).2) := by
  simp only [registerProcessor, h]

/-- C1: `registerProcessor` keeps the first registration of a slot.  For
every registry state and every live processor `P1`, every slot that has a
handler before `registerProcessor( P1 )` maps to the same handler afterwards
(and likewise for a following `registerProcessor( P2 )`); and when `P1` and
`P2` both declare a slot `S` that `P1` is the first to register, the handler
stored for `S` after both registrations is the closure that delegates to `P1`. -/
theorem registerProcessor_first_registration_wins
    (alive : Processors) (s : JQNetworkServer) (P1 P2 : JQNetworkProcessorPointer)
    (o1 o2 : JQNetworkProcessor)
    (h1 : QMap.value alive P1 = some o1) (h2 : QMap.value alive P2 = some o2) :
    ∃ s1 e1 s2 e2,
      registerProcessor alive s P1 = some (s1, e1) ∧
      registerProcessor alive s1 P2 = some (s2, e2) ∧
      (∀ slot cb, QMap.value s.processor_ slot = some cb →
        QMap.value s1.processor_ slot = some cb) ∧
      (∀ slot cb, QMap.value s1.processor_ slot = some cb →
        QMap.value s2.processor_ slot = some cb) ∧
      (∀ S, S ∈ o1.availableSlots → S ∈ o2.availableSlots →
        QMap.contains s.processor_ S = false →
        QMap.value s2.processor_ S = some ⟨P1⟩) := by
  refine ⟨_, _, _, _, registerProcessor_of_alive alive s P1 o1 h1,
    registerProcessor_of_alive alive _ P2 o2 h2, ?_, ?_, ?_⟩
  · intro slot cb h
    exact registerSlots_value_kept P1 o1.availableSlots _ slot cb h
  · intro slot cb h
    exact registerSlots_value_kept P2 o2.availableSlots _ slot cb h
  · intro S hS1 _ hfresh
    apply registerSlots_value_kept P2 o2.availableSlots
    exact registerSlots_value_fresh P1 o1.availableSlots _ S hS1 hfresh

/-- C1, at processors 10 and 11 registered in that order on a new server. -/
theorem registerProcessor_first_registration_wins_witness :
    (QMap.value Example.processors 10 = some ⟨["S"]⟩ ∧
      QMap.value Example.processors 11 = some ⟨["S", "T"]⟩) ∧
    ∃ s1 e1 s2 e2,
      registerProcessor Example.processors Example.serverA 10 = some (s1, e1) ∧
      registerProcessor Example.processors s1 11 = some (s2, e2) ∧
      (∀ slot cb, QMap.value Example.serverA.processor_ slot = some cb →
        QMap.value s1.processor_ slot = some cb) ∧
      (∀ slot cb, QMap.value s1.processor_ slot = some cb →
        QMap.value s2.processor_ slot = some cb) ∧
      (∀ S, S ∈ (⟨["S"]⟩ : JQNetworkProcessor).availableSlots →
        S ∈ (⟨["S", "T"]⟩ : JQNetworkProcessor).availableSlots →
        QMap.contains Example.serverA.processor_ S = false →
        QMap.value s2.processor_ S = some ⟨10⟩) :=
  ⟨⟨by decide, by decide⟩,
    registerProcessor_first_registration_wins Example.processors Example.serverA 10 11
      ⟨["S"]⟩ ⟨["S", "T"]⟩ (by decide) (by decide)⟩

/-- C9 (as stated) fails: processor 10 registers slot `S` on a new server and
is then destroyed; the handler installed for `S`, invoked with connection 5
and a package, logs and makes no call to `handlePackage`. -/
theorem registerProcessor_handler_after_processor_destroyed :
    ∃ s1 e1 cb,
      registerProcessor Example.processors Example.serverA 10 = some (s1, e1) ∧
      QMap.contains Example.serverA.processor_ "S" = false ∧
      QMap.value s1.processor_ "S" = some cb ∧
      cb.call [] 5 Example.package = [Example.processorIsNull] ∧
      (cb.call [] 5 Example.package).count (Event.handlePackage 10 5 Example.package) = 0 :=
  ⟨_, _, ⟨10⟩, rfl, by decide, by decide, by decide, by decide⟩

/-- C9 (amended): after `registerProcessor( P )` the registered slots are the
slots registered before together with the slots `P` declares, and each
declared slot that was missing holds a handler that, invoked with a connection
and a package, calls `P`'s `handlePackage` with them exactly once while `P` is
alive, and only logs once `P` is gone. -/
theorem registerProcessor_installs_missing_slots
    (alive : Processors) (s : JQNetworkServer) (P : JQNetworkProcessorPointer)
    (o : JQNetworkProcessor) (h : QMap.value alive P = some o) :
    ∃ s1 e1,
      registerProcessor alive s P = some (s1, e1) ∧
      (∀ slot, QMap.contains s1.processor_ slot = true ↔
        (QMap.contains s.processor_ slot = true ∨ slot ∈ o.availableSlots)) ∧
      (∀ slot, slot ∈ o.availableSlots → QMap.contains s.processor_ slot = false →
        ∃ cb, QMap.value s1.processor_ slot = some cb ∧
          ∀ (later : Processors) (c : JQNetworkConnectPointer)
            (p : JQNetworkPackageSharedPointer),
            (QMap.contains later P = true →
              cb.call later c p = [Event.handlePackage P c p]) ∧
            (QMap.contains later P = false →
              cb.call later c p =
                [Event.qDebug "JQNetworkServer::registerProcessor: processor is null"])) := by
  refine ⟨_, _, registerProcessor_of_alive alive s P o h, ?_, ?_⟩
  · intro slot
    exact registerSlots_contains P o.availableSlots s.processor_ slot
  · intro slot hmem hfresh
    refine ⟨⟨P⟩, registerSlots_value_fresh P o.availableSlots s.processor_ slot hmem hfresh, ?_⟩
    intro later c p
    constructor
    · intro hl
      simp [ProcessorCallback.call, hl]
    · intro hl
      simp [ProcessorCallback.call, hl]

/-- C9 (amended), at processor 11 registered on a new server. -/
theorem registerProcessor_installs_missing_slots_witness :
    QMap.value Example.processors 11 = some ⟨["S", "T"]⟩ ∧
    ∃ s1 e1,
      registerProcessor Example.processors Example.serverA 11 = some (s1, e1) ∧
      (∀ slot, QMap.contains s1.processor_ slot = true ↔
        (QMap.contains Example.serverA.processor_ slot = true ∨
          slot ∈ (⟨["S", "T"]⟩ : JQNetworkProcessor).availableSlots)) ∧
      (∀ slot, slot ∈ (⟨["S", "T"]⟩ : JQNetworkProcessor).availableSlots →
        QMap.contains Example.serverA.processor_ slot = false →
        ∃ cb, QMap.value s1.processor_ slot = some cb ∧
          ∀ (later : Processors) (c : JQNetworkConnectPointer)
            (p : JQNetworkPackageSharedPointer),
            (QMap.contains later 11 = true →
              cb.call later c p = [Event.handlePackage 11 c p]) ∧
            (QMap.contains later 11 = false →
              cb.call later c p =
                [Event.qDebug "JQNetworkServer::registerProcessor: processor is null"])) :=
  ⟨by decide,
    registerProcessor_installs_missing_slots Example.processors Example.serverA 11
      ⟨["S", "T"]⟩ (by decide)⟩

/-! ## Receiving a package -/

theorem onPackageReceived_without_callback (s : JQNetworkServer) (g : Process)
    (c : JQNetworkConnectPointer) (p : JQNetworkPackageSharedPointer)
    (h : s.serverSettings_.packageReceivedCallback = none) :
    onPackageReceived s g c p = some (g, [Example.callbackIsNull]) := by
  simp [onPackageReceived, h, JQNETWORK_NULLPTR_CHECK, Example.callbackIsNull]

theorem onPackageReceived_with_callback (s : JQNetworkServer) (g : Process)
    (c : JQNetworkConnectPointer) (p : JQNetworkPackageSharedPointer)
    (cb : Nat) (a : PoolRef) (cell : SharedPool)
    (h : s.serverSettings_.packageReceivedCallback = some cb)
    (ha : s.processorThreadPool_ = some a) (hc : g.heap[a]? = some cell) :
    onPackageReceived s g c p =
      some (g.store a { cell with pool := cell.pool.runAny (Task.packageReceived c p cb) },
        []) := by
  simp [onPackageReceived, h, ha, hc, JQNETWORK_NULLPTR_CHECK]

theorem postedOn_set_self (g : Process) (a : PoolRef) (cell cell1 : SharedPool)
    (hc : g.heap[a]? = some cell) :
    Process.postedOn (g.store a cell1) a = cell1.pool.posted := by
  rcases Nat.lt_or_ge a g.heap.length with hlt | hge
  · simp [Process.postedOn, Process.store, hlt]
  · rw [List.getElem?_eq_none hge] at hc
    cases hc

theorem postedOn_set_other (g : Process) (a b : PoolRef) (cell1 : SharedPool) (h : b ≠ a) :
    Process.postedOn (g.store a cell1) b = Process.postedOn g b := by
  simp [Process.postedOn, Process.store, List.getElem?_set_ne (Ne.symm h)]

/-- C2 (as stated) fails: server A has a handler registered for slot `S` and
has been started; a package for slot `S` handed to `onPackageReceived` is not
given to that handler: nothing is posted to any pool (the process is
unchanged) and the call only logs. -/
theorem onPackageReceived_registered_slot_not_dispatched :
    registerProcessor Example.processors Example.serverA 10 = some (Example.registeredA, []) ∧
    Example.startedA.1 = true ∧
    QMap.value Example.startedA.2.1.processor_ Example.package.slot = some ⟨10⟩ ∧
    onPackageReceived Example.startedA.2.1 Example.startedA.2.2 5 Example.package =
      some (Example.startedA.2.2, [Example.callbackIsNull]) :=
  ⟨by decide, by decide, by decide, by decide⟩

/-- C2 (amended): `onPackageReceived` does not look the package's slot up in
the processor registry.  On a started server its outcome is the same for every
registry, no registered handler is invoked, the package is dropped (nothing is
posted) when no package-received callback is configured, and otherwise one
task is posted to the processor pool that calls the configured callback with
that connection and package. -/
theorem onPackageReceived_does_not_consult_registry
    (s : JQNetworkServer) (g : Process) (c : JQNetworkConnectPointer)
    (p : JQNetworkPackageSharedPointer) (a : PoolRef) (cell : SharedPool)
    (ha : s.processorThreadPool_ = some a) (hc : g.heap[a]? = some cell) :
    (∀ registry, onPackageReceived { s with processor_ := registry } g c p =
      onPackageReceived s g c p) ∧
    ∃ g1 inline,
      onPackageReceived s g c p = some (g1, inline) ∧
      (∀ P c1 p1, Event.handlePackage P c1 p1 ∉ inline) ∧
      (s.serverSettings_.packageReceivedCallback = none → g1 = g) ∧
      (∀ cb, s.serverSettings_.packageReceivedCallback = some cb →
        g1.postedOn a = g.postedOn a ++ [⟨Task.packageReceived c p cb, none, false⟩] ∧
        ∀ (env : Env) (s1 : JQNetworkServer) (thread : QThread),
          Task.execute env s1 thread (Task.packageReceived c p cb) =
            some (s1, [Event.packageReceivedCallback cb c p])) := by
  refine ⟨fun registry => rfl, ?_⟩
  cases hcb : s.serverSettings_.packageReceivedCallback with
  | none =>
    refine ⟨g, _, onPackageReceived_without_callback s g c p hcb, ?_, fun _ => rfl, ?_⟩
    · intro P c1 p1
      simp [Example.callbackIsNull]
    · intro cb h
      cases h
  | some cb =>
    refine ⟨_, _, onPackageReceived_with_callback s g c p cb a cell hcb ha hc, ?_, ?_, ?_⟩
    · intro P c1 p1
      simp
    · intro h
      cases h
    · intro cb1 h
      cases h
      refine ⟨?_, fun env s1 thread => rfl⟩
      rw [postedOn_set_self g a cell _ hc]
      simp [Process.postedOn, hc, JQNetworkThreadPool.runAny]

/-- C2 (amended), at server C started in a new process. -/
theorem onPackageReceived_does_not_consult_registry_witness :
    (Example.startedC.2.1.processorThreadPool_ = some 2 ∧
      Example.startedC.2.2.heap[2]? = some ⟨1, JQNetworkThreadPool.create 2⟩) ∧
    ((∀ registry, onPackageReceived { Example.startedC.2.1 with processor_ := registry }
        Example.startedC.2.2 5 Example.package =
      onPackageReceived Example.startedC.2.1 Example.startedC.2.2 5 Example.package) ∧
    ∃ g1 inline,
      onPackageReceived Example.startedC.2.1 Example.startedC.2.2 5 Example.package =
        some (g1, inline) ∧
      (∀ P c1 p1, Event.handlePackage P c1 p1 ∉ inline) ∧
      (Example.startedC.2.1.serverSettings_.packageReceivedCallback = none →
        g1 = Example.startedC.2.2) ∧
      (∀ cb, Example.startedC.2.1.serverSettings_.packageReceivedCallback = some cb →
        g1.postedOn 2 = Example.startedC.2.2.postedOn 2 ++
          [⟨Task.packageReceived 5 Example.package cb, none, false⟩] ∧
        ∀ (env : Env) (s1 : JQNetworkServer) (thread : QThread),
          Task.execute env s1 thread (Task.packageReceived 5 Example.package cb) =
            some (s1, [Event.packageReceivedCallback cb 5 Example.package]))) :=
  ⟨⟨by decide, by decide⟩,
    onPackageReceived_does_not_consult_registry Example.startedC.2.1 Example.startedC.2.2 5
      Example.package 2 ⟨1, JQNetworkThreadPool.create 2⟩ (by decide) (by decide)⟩

/-- C10: `onPackageReceived` never runs the package-received callback itself.
On a started server, when no callback is configured it posts nothing and only
logs; when callback `cb` is configured it makes no inline call and appends
exactly one task to the processor pool, leaving every other pool as it was,
and that task, when a worker runs it, calls `cb` once with the same connection
and the same package. -/
theorem onPackageReceived_posts_one_callback_task
    (s : JQNetworkServer) (g : Process) (c : JQNetworkConnectPointer)
    (p : JQNetworkPackageSharedPointer) (a : PoolRef) (cell : SharedPool)
    (ha : s.processorThreadPool_ = some a) (hc : g.heap[a]? = some cell) :
    (s.serverSettings_.packageReceivedCallback = none →
      onPackageReceived s g c p = some (g, [Example.callbackIsNull])) ∧
    (∀ cb, s.serverSettings_.packageReceivedCallback = some cb →
      ∃ g1,
        onPackageReceived s g c p = some (g1, []) ∧
        g1 = g.store a { cell with pool := { cell.pool with
          posted := cell.pool.posted ++ [⟨Task.packageReceived c p cb, none, false⟩] } } ∧
        g1.postedOn a = g.postedOn a ++ [⟨Task.packageReceived c p cb, none, false⟩] ∧
        (∀ b, b ≠ a → g1.postedOn b = g.postedOn b) ∧
        ∀ (env : Env) (s1 : JQNetworkServer) (thread : QThread),
          Task.execute env s1 thread (Task.packageReceived c p cb) =
            some (s1, [Event.packageReceivedCallback cb c p])) := by
  refine ⟨fun h => onPackageReceived_without_callback s g c p h, ?_⟩
  intro cb hcb
  refine ⟨_, onPackageReceived_with_callback s g c p cb a cell hcb ha hc, rfl, ?_, ?_,
    fun env s1 thread => rfl⟩
  · rw [postedOn_set_self g a cell _ hc]
    simp [Process.postedOn, hc, JQNetworkThreadPool.runAny]
  · intro b hb
    exact postedOn_set_other g a b _ hb

/-- C10, at server C started in a new process. -/
theorem onPackageReceived_posts_one_callback_task_witness :
    (Example.startedC.2.1.processorThreadPool_ = some 2 ∧
      Example.startedC.2.2.heap[2]? = some ⟨1, JQNetworkThreadPool.create 2⟩) ∧
    onPackageReceived Example.startedC.2.1 Example.startedC.2.2 5 Example.package =
      some (Example.startedC.2.2.store 2
        ⟨1, ⟨2, 0, [⟨Task.packageReceived 5 Example.package 3, none, false⟩]⟩⟩, []) :=
  ⟨⟨by decide, by decide⟩, by
    obtain ⟨g1, h1, h2, -⟩ :=
      (onPackageReceived_posts_one_callback_task Example.startedC.2.1 Example.startedC.2.2 5
        Example.package 2 ⟨1, JQNetworkThreadPool.create 2⟩ (by decide) (by decide)).2 3
        (by decide)
    rw [h1, h2]
    rfl⟩

/-! ## Reference counts of the shared pools -/

namespace Process

theorem getElem?_set_heap (l : List SharedPool) (a b : Nat) (x : SharedPool)
    (h : a < l.length) : (l.set a x)[b]? = if a = b then some x else l[b]? := by
  rw [List.getElem?_set]
  simp [h]

theorem count_of_length_le (g : Process) (b : Nat) (h : g.heap.length ≤ b) :
    g.count b = 0 := by
  simp [count, List.getElem?_eq_none h]

theorem lt_length_of_count_pos (g : Process) (b : Nat) (h : 0 < g.count b) :
    b < g.heap.length := by
  by_contra hn
  rw [count_of_length_le g b (by omega)] at h
  omega

theorem count_retain (g : Process) (a b : Nat) (h : a < g.heap.length) :
    (g.retain (some a)).count b = g.count b + if b = a then 1 else 0 := by
  obtain ⟨c, hc⟩ : ∃ c, g.heap[a]? = some c := ⟨g.heap[a], List.getElem?_eq_getElem h⟩
  by_cases hb : b = a
  · subst hb
    simp [retain, modify, store, count, hc, getElem?_set_heap, h]
  · simp [retain, modify, store, count, hc, getElem?_set_heap, h, hb, Ne.symm hb]

theorem count_release (g : Process) (a b : Nat) :
    (g.release (some a)).count b = g.count b - if b = a then 1 else 0 := by
  rcases Nat.lt_or_ge a g.heap.length with h | h
  · obtain ⟨c, hc⟩ : ∃ c, g.heap[a]? = some c := ⟨g.heap[a], List.getElem?_eq_getElem h⟩
    by_cases hb : b = a
    · subst hb
      simp [release, modify, store, count, hc, getElem?_set_heap, h]
    · simp [release, modify, store, count, hc, getElem?_set_heap, h, hb, Ne.symm hb]
  · have hn : g.heap[a]? = none := List.getElem?_eq_none h
    by_cases hb : b = a
    · subst hb
      simp [release, modify, hn, count]
    · simp [release, modify, hn, hb]

theorem count_allocate (g : Process) (n : Nat) (b : Nat) :
    (g.allocate n).2.count b = g.count b + if b = g.heap.length then 1 else 0 := by
  simp only [allocate, count, List.getElem?_append]
  by_cases h1 : b < g.heap.length
  · have : b ≠ g.heap.length := by omega
    simp [h1, this]
  · by_cases h2 : b = g.heap.length
    · subst h2
      simp
    · have h3 : g.heap[b]? = none := List.getElem?_eq_none (by omega)
      rcases hb : b - g.heap.length with _ | k
      · omega
      · simp [h1, h2, h3, hb]

theorem count_onPool (g : Process) (a b : Nat)
    (f : JQNetworkThreadPool → JQNetworkThreadPool) :
    (g.onPool a f).count b = g.count b := by
  rcases Nat.lt_or_ge a g.heap.length with h | h
  · obtain ⟨c, hc⟩ : ∃ c, g.heap[a]? = some c := ⟨g.heap[a], List.getElem?_eq_getElem h⟩
    by_cases hb : b = a
    · subst hb
      simp [onPool, modify, store, count, hc, getElem?_set_heap, h]
    · simp [onPool, modify, store, count, hc, getElem?_set_heap, h, hb, Ne.symm hb]
  · have hn : g.heap[a]? = none := List.getElem?_eq_none h
    simp [onPool, modify, hn]

end Process

namespace Process

@[simp] theorem retain_fields (g : Process) (w : Option PoolRef) :
    (g.retain w).globalServerThreadPool_ = g.globalServerThreadPool_ ∧
    (g.retain w).globalSocketThreadPool_ = g.globalSocketThreadPool_ ∧
    (g.retain w).globalProcessorThreadPool_ = g.globalProcessorThreadPool_ ∧
    (g.retain w).heap.length = g.heap.length := by
  cases w with
  | none => simp [retain]
  | some a =>
    cases h : g.heap[a]? <;> simp [retain, modify, store, h]

@[simp] theorem release_fields (g : Process) (w : Option PoolRef) :
    (g.release w).globalServerThreadPool_ = g.globalServerThreadPool_ ∧
    (g.release w).globalSocketThreadPool_ = g.globalSocketThreadPool_ ∧
    (g.release w).globalProcessorThreadPool_ = g.globalProcessorThreadPool_ ∧
    (g.release w).heap.length = g.heap.length := by
  cases w with
  | none => simp [release]
  | some a =>
    cases h : g.heap[a]? <;> simp [release, modify, store, h]

@[simp] theorem onPool_fields (g : Process) (a : Nat)
    (f : JQNetworkThreadPool → JQNetworkThreadPool) :
    (g.onPool a f).globalServerThreadPool_ = g.globalServerThreadPool_ ∧
    (g.onPool a f).globalSocketThreadPool_ = g.globalSocketThreadPool_ ∧
    (g.onPool a f).globalProcessorThreadPool_ = g.globalProcessorThreadPool_ ∧
    (g.onPool a f).heap.length = g.heap.length := by
  cases h : g.heap[a]? <;> simp [onPool, modify, store, h]

theorem isLive_some (g : Process) (a : Nat) : g.isLive (some a) = decide (0 < g.count a) := rfl

/-- What one pool acquisition does when the member was null before. -/
theorem acquire_spec (g : Process) (global : Option PoolRef) (n : Nat) :
    ∃ a : Nat, (g.acquire global none n).1 = some a ∧
      (∀ b : Nat, (g.acquire global none n).2.count b = g.count b + if b = a then 1 else 0) ∧
      (g.acquire global none n).2.globalServerThreadPool_ = g.globalServerThreadPool_ ∧
      (g.acquire global none n).2.globalSocketThreadPool_ = g.globalSocketThreadPool_ ∧
      (g.acquire global none n).2.globalProcessorThreadPool_ = g.globalProcessorThreadPool_ ∧
      a < (g.acquire global none n).2.heap.length ∧
      (g.isLive global = true →
        global = some a ∧ (g.acquire global none n).2.heap.length = g.heap.length) ∧
      (g.isLive global = false →
        a = g.heap.length ∧ (g.acquire global none n).2.heap.length = g.heap.length + 1) := by
  cases hl : g.isLive global with
  | true =>
    cases global with
    | none => simp [isLive] at hl
    | some a =>
      have hpos : 0 < g.count a := by simpa [isLive_some] using hl
      have hlt : a < g.heap.length := lt_length_of_count_pos g a hpos
      refine ⟨a, ?_, ?_, ?_, ?_, ?_, ?_, ?_, ?_⟩
      · simp [acquire, hl]
      · intro b
        simp [acquire, hl, release, count_retain g a b hlt]
      · simp [acquire, hl, release]
      · simp [acquire, hl, release]
      · simp [acquire, hl, release]
      · simpa [acquire, hl, release] using hlt
      · intro _
        simp [acquire, hl, release]
      · intro h
        cases h
  | false =>
    refine ⟨g.heap.length, ?_, ?_, ?_, ?_, ?_, ?_, ?_, ?_⟩
    · simp [acquire, hl, allocate]
    · intro b
      simp [acquire, hl, release, count_allocate]
    · simp [acquire, hl, release, allocate]
    · simp [acquire, hl, release, allocate]
    · simp [acquire, hl, release, allocate]
    · simp [acquire, hl, release, allocate]
    · intro h
      cases h
    · intro _
      simp [acquire, hl, release, allocate]

end Process

/-! ## The three acquisitions of `begin` -/

namespace JQNetworkServer

theorem acquireServerThreadPool_eq (s : JQNetworkServer) (g : Process) :
    acquireServerThreadPool s g =
      ({ s with serverThreadPool_ :=
          (g.acquire g.globalServerThreadPool_ s.serverThreadPool_ s.serverSettings_.globalServerThreadCount).1 },
       { (g.acquire g.globalServerThreadPool_ s.serverThreadPool_ s.serverSettings_.globalServerThreadCount).2 with
          globalServerThreadPool_ :=
            (g.acquire g.globalServerThreadPool_ s.serverThreadPool_ s.serverSettings_.globalServerThreadCount).1 }) := by
  cases hl : g.isLive g.globalServerThreadPool_ with
  | true =>
    have e : ((g.retain g.globalServerThreadPool_).release s.serverThreadPool_).globalServerThreadPool_ =
        g.globalServerThreadPool_ := by simp
    have e1 : ∀ (p : Process) (x : Option PoolRef), p.globalServerThreadPool_ = x →
        { p with globalServerThreadPool_ := x } = p := by
      intro p x hx
      subst hx
      rfl
    simp only [acquireServerThreadPool, Process.acquire, hl, if_true]
    rw [e1 _ _ e, e]
  | false =>
    simp [acquireServerThreadPool, Process.acquire, hl]

theorem acquireServerThreadPool_spec (s : JQNetworkServer) (g : Process)
    (h : s.serverThreadPool_ = none) :
    ∃ a : Nat,
      (acquireServerThreadPool s g).1 = { s with serverThreadPool_ := some a } ∧
      (∀ b : Nat, (acquireServerThreadPool s g).2.count b =
        g.count b + if b = a then 1 else 0) ∧
      (acquireServerThreadPool s g).2.globalServerThreadPool_ = some a ∧
      (acquireServerThreadPool s g).2.globalSocketThreadPool_ = g.globalSocketThreadPool_ ∧
      (acquireServerThreadPool s g).2.globalProcessorThreadPool_ = g.globalProcessorThreadPool_ ∧
      a < (acquireServerThreadPool s g).2.heap.length ∧
      (g.isLive g.globalServerThreadPool_ = true →
        g.globalServerThreadPool_ = some a ∧
          (acquireServerThreadPool s g).2.heap.length = g.heap.length) ∧
      (g.isLive g.globalServerThreadPool_ = false →
        a = g.heap.length ∧
          (acquireServerThreadPool s g).2.heap.length = g.heap.length + 1) := by
  obtain ⟨a, e, c, g1, g2, g3, l, hlive, hdead⟩ :=
    Process.acquire_spec g g.globalServerThreadPool_ s.serverSettings_.globalServerThreadCount
  rw [acquireServerThreadPool_eq, h]
  simp only [e]
  exact ⟨a, rfl, c, rfl, by assumption, by assumption, l, hlive, hdead⟩

theorem acquireSocketThreadPool_eq (s : JQNetworkServer) (g : Process) :
    acquireSocketThreadPool s g =
      ({ s with socketThreadPool_ :=
          (g.acquire g.globalSocketThreadPool_ s.socketThreadPool_ s.serverSettings_.globalSocketThreadCount).1 },
       { (g.acquire g.globalSocketThreadPool_ s.socketThreadPool_ s.serverSettings_.globalSocketThreadCount).2 with
          globalSocketThreadPool_ :=
            (g.acquire g.globalSocketThreadPool_ s.socketThreadPool_ s.serverSettings_.globalSocketThreadCount).1 }) := by
  cases hl : g.isLive g.globalSocketThreadPool_ with
  | true =>
    have e : ((g.retain g.globalSocketThreadPool_).release s.socketThreadPool_).globalSocketThreadPool_ =
        g.globalSocketThreadPool_ := by simp
    have e1 : ∀ (p : Process) (x : Option PoolRef), p.globalSocketThreadPool_ = x →
        { p with globalSocketThreadPool_ := x } = p := by
      intro p x hx
      subst hx
      rfl
    simp only [acquireSocketThreadPool, Process.acquire, hl, if_true]
    rw [e1 _ _ e, e]
  | false =>
    simp [acquireSocketThreadPool, Process.acquire, hl]

theorem acquireSocketThreadPool_spec (s : JQNetworkServer) (g : Process)
    (h : s.socketThreadPool_ = none) :
    ∃ a : Nat,
      (acquireSocketThreadPool s g).1 = { s with socketThreadPool_ := some a } ∧
      (∀ b : Nat, (acquireSocketThreadPool s g).2.count b =
        g.count b + if b = a then 1 else 0) ∧
      (acquireSocketThreadPool s g).2.globalSocketThreadPool_ = some a ∧
      (acquireSocketThreadPool s g).2.globalServerThreadPool_ = g.globalServerThreadPool_ ∧
      (acquireSocketThreadPool s g).2.globalProcessorThreadPool_ = g.globalProcessorThreadPool_ ∧
      a < (acquireSocketThreadPool s g).2.heap.length ∧
      (g.isLive g.globalSocketThreadPool_ = true →
        g.globalSocketThreadPool_ = some a ∧
          (acquireSocketThreadPool s g).2.heap.length = g.heap.length) ∧
      (g.isLive g.globalSocketThreadPool_ = false →
        a = g.heap.length ∧
          (acquireSocketThreadPool s g).2.heap.length = g.heap.length + 1) := by
  obtain ⟨a, e, c, g1, g2, g3, l, hlive, hdead⟩ :=
    Process.acquire_spec g g.globalSocketThreadPool_ s.serverSettings_.globalSocketThreadCount
  rw [acquireSocketThreadPool_eq, h]
  simp only [e]
  exact ⟨a, rfl, c, rfl, by assumption, by assumption, l, hlive, hdead⟩

theorem acquireProcessorThreadPool_eq (s : JQNetworkServer) (g : Process) :
    acquireProcessorThreadPool s g =
      ({ s with processorThreadPool_ :=
          (g.acquire g.globalProcessorThreadPool_ s.processorThreadPool_ s.serverSettings_.globalProcessorThreadCount).1 },
       { (g.acquire g.globalProcessorThreadPool_ s.processorThreadPool_ s.serverSettings_.globalProcessorThreadCount).2 with
          globalProcessorThreadPool_ :=
            (g.acquire g.globalProcessorThreadPool_ s.processorThreadPool_ s.serverSettings_.globalProcessorThreadCount).1 }) := by
  cases hl : g.isLive g.globalProcessorThreadPool_ with
  | true =>
    have e : ((g.retain g.globalProcessorThreadPool_).release s.processorThreadPool_).globalProcessorThreadPool_ =
        g.globalProcessorThreadPool_ := by simp
    have e1 : ∀ (p : Process) (x : Option PoolRef), p.globalProcessorThreadPool_ = x →
        { p with globalProcessorThreadPool_ := x } = p := by
      intro p x hx
      subst hx
      rfl
    simp only [acquireProcessorThreadPool, Process.acquire, hl, if_true]
    rw [e1 _ _ e, e]
  | false =>
    simp [acquireProcessorThreadPool, Process.acquire, hl]

theorem acquireProcessorThreadPool_spec (s : JQNetworkServer) (g : Process)
    (h : s.processorThreadPool_ = none) :
    ∃ a : Nat,
      (acquireProcessorThreadPool s g).1 = { s with processorThreadPool_ := some a } ∧
      (∀ b : Nat, (acquireProcessorThreadPool s g).2.count b =
        g.count b + if b = a then 1 else 0) ∧
      (acquireProcessorThreadPool s g).2.globalProcessorThreadPool_ = some a ∧
      (acquireProcessorThreadPool s g).2.globalServerThreadPool_ = g.globalServerThreadPool_ ∧
      (acquireProcessorThreadPool s g).2.globalSocketThreadPool_ = g.globalSocketThreadPool_ ∧
      a < (acquireProcessorThreadPool s g).2.heap.length ∧
      (g.isLive g.globalProcessorThreadPool_ = true →
        g.globalProcessorThreadPool_ = some a ∧
          (acquireProcessorThreadPool s g).2.heap.length = g.heap.length) ∧
      (g.isLive g.globalProcessorThreadPool_ = false →
        a = g.heap.length ∧
          (acquireProcessorThreadPool s g).2.heap.length = g.heap.length + 1) := by
  obtain ⟨a, e, c, g1, g2, g3, l, hlive, hdead⟩ :=
    Process.acquire_spec g g.globalProcessorThreadPool_ s.serverSettings_.globalProcessorThreadCount
  rw [acquireProcessorThreadPool_eq, h]
  simp only [e]
  exact ⟨a, rfl, c, rfl, by assumption, by assumption, l, hlive, hdead⟩

end JQNetworkServer

namespace Process

theorem isLive_mono (g g1 : Process) (w : Option PoolRef)
    (h : ∀ b : Nat, g.count b ≤ g1.count b) (hl : g.isLive w = true) : g1.isLive w = true := by
  cases w with
  | none => simp [isLive] at hl
  | some a =>
    have h0 : 0 < g.count a := by simpa [isLive_some] using hl
    have h1 := h a
    simp only [isLive_some, decide_eq_true_eq]
    omega

theorem count_of_idle (g : Process) (h : g.idle = true) (b : Nat) : g.count b = 0 := by
  simp only [idle, Bool.and_eq_true, List.all_eq_true, beq_iff_eq] at h
  obtain ⟨⟨⟨hall, -⟩, -⟩, -⟩ := h
  cases hb : g.heap[b]? with
  | none => simp [count, hb]
  | some c =>
    have hmem : c ∈ g.heap := List.getElem?_mem hb
    simp [count, hb, hall c hmem]

theorem not_isLive_of_dead (g1 : Process) (w : Option PoolRef)
    (h : ∀ a : Nat, w = some a → g1.count a = 0) : g1.isLive w = false := by
  cases w with
  | none => rfl
  | some a => simp [isLive_some, h a rfl]

end Process

namespace JQNetworkServer

/-- What lines 110-140 do on a server that holds no pool yet. -/
theorem acquirePools_spec (env : Env) (s : JQNetworkServer) (g : Process)
    (h1 : s.serverThreadPool_ = none) (h2 : s.socketThreadPool_ = none)
    (h3 : s.processorThreadPool_ = none) :
    ∃ a1 a2 a3 : Nat,
      (acquirePools env s g).1 =
        { s with
          nodeMarkSummary_ := env.calculateNodeMarkSummary s.serverSettings_.dutyMark
          serverThreadPool_ := some a1
          socketThreadPool_ := some a2
          processorThreadPool_ := some a3 } ∧
      (acquirePools env s g).2.globalServerThreadPool_ = some a1 ∧
      (acquirePools env s g).2.globalSocketThreadPool_ = some a2 ∧
      (acquirePools env s g).2.globalProcessorThreadPool_ = some a3 ∧
      (∀ b : Nat, (acquirePools env s g).2.count b =
        g.count b + (if b = a1 then 1 else 0) + (if b = a2 then 1 else 0) +
          (if b = a3 then 1 else 0)) ∧
      a1 < (acquirePools env s g).2.heap.length ∧
      a2 < (acquirePools env s g).2.heap.length ∧
      a3 < (acquirePools env s g).2.heap.length ∧
      g.heap.length ≤ (acquirePools env s g).2.heap.length ∧
      (g.isLive g.globalServerThreadPool_ = true → g.isLive g.globalSocketThreadPool_ = true →
        g.isLive g.globalProcessorThreadPool_ = true →
        (acquirePools env s g).2.heap.length = g.heap.length ∧
        g.globalServerThreadPool_ = some a1 ∧ g.globalSocketThreadPool_ = some a2 ∧
        g.globalProcessorThreadPool_ = some a3) ∧
      (g.idle = true →
        (acquirePools env s g).2.heap.length = g.heap.length + 3 ∧
        a1 = g.heap.length ∧ a2 = g.heap.length + 1 ∧ a3 = g.heap.length + 2) ∧
      (g.isLive g.globalServerThreadPool_ = true → g.globalServerThreadPool_ = some a1) ∧
      (g.isLive g.globalSocketThreadPool_ = true → g.globalSocketThreadPool_ = some a2) ∧
      (g.isLive g.globalProcessorThreadPool_ = true → g.globalProcessorThreadPool_ = some a3) := by
  obtain ⟨a1, es1, c1, gs1, gk1, gp1, l1, live1, dead1⟩ :=
    acquireServerThreadPool_spec
      { s with nodeMarkSummary_ := env.calculateNodeMarkSummary s.serverSettings_.dutyMark } g h1
  generalize hr1 : acquireServerThreadPool
    { s with nodeMarkSummary_ := env.calculateNodeMarkSummary s.serverSettings_.dutyMark } g = r1
    at es1 c1 gs1 gk1 gp1 l1 live1 dead1
  have h2a : r1.1.socketThreadPool_ = none := by rw [es1]; exact h2
  obtain ⟨a2, es2, c2, gs2, gk2, gp2, l2, live2, dead2⟩ :=
    acquireSocketThreadPool_spec r1.1 r1.2 h2a
  generalize hr2 : acquireSocketThreadPool r1.1 r1.2 = r2
    at es2 c2 gs2 gk2 gp2 l2 live2 dead2
  have h3a : r2.1.processorThreadPool_ = none := by rw [es2, es1]; exact h3
  obtain ⟨a3, es3, c3, gs3, gk3, gp3, l3, live3, dead3⟩ :=
    acquireProcessorThreadPool_spec r2.1 r2.2 h3a
  have hr : acquirePools env s g = acquireProcessorThreadPool r2.1 r2.2 := by
    simp only [acquirePools, hr1, hr2]
  generalize hr3 : acquireProcessorThreadPool r2.1 r2.2 = r3
    at es3 c3 gs3 gk3 gp3 l3 live3 dead3 hr
  rw [hr]
  have len1 : g.heap.length ≤ r1.2.heap.length := by
    cases hl : g.isLive g.globalServerThreadPool_ with
    | true => have := (live1 hl).2; omega
    | false => have := (dead1 hl).2; omega
  have len2 : r1.2.heap.length ≤ r2.2.heap.length := by
    cases hl : r1.2.isLive r1.2.globalSocketThreadPool_ with
    | true => have := (live2 hl).2; omega
    | false => have := (dead2 hl).2; omega
  have len3 : r2.2.heap.length ≤ r3.2.heap.length := by
    cases hl : r2.2.isLive r2.2.globalProcessorThreadPool_ with
    | true => have := (live3 hl).2; omega
    | false => have := (dead3 hl).2; omega
  have m1 : ∀ b : Nat, g.count b ≤ r1.2.count b := fun b => by rw [c1 b]; omega
  have m2 : ∀ b : Nat, r1.2.count b ≤ r2.2.count b := fun b => by rw [c2 b]; omega
  have L1 : g.isLive g.globalServerThreadPool_ = true → g.globalServerThreadPool_ = some a1 :=
    fun hl => (live1 hl).1
  have L2 : g.isLive g.globalSocketThreadPool_ = true → g.globalSocketThreadPool_ = some a2 := by
    intro hl
    have t := live2 (by rw [gk1]; exact Process.isLive_mono g r1.2 _ m1 hl)
    rw [gk1] at t
    exact t.1
  have L3 : g.isLive g.globalProcessorThreadPool_ = true →
      g.globalProcessorThreadPool_ = some a3 := by
    intro hl
    have t := live3 (by
      rw [gp2, gp1]
      exact Process.isLive_mono r1.2 r2.2 _ m2 (Process.isLive_mono g r1.2 _ m1 hl))
    rw [gp2, gp1] at t
    exact t.1
  refine ⟨a1, a2, a3, ?_, ?_, ?_, ?_, ?_, ?_, ?_, ?_, ?_, ?_, ?_, L1, L2, L3⟩
  · rw [es3, es2, es1]
  · rw [gk3, gk2, gs1]
  · rw [gp3, gs2]
  · exact gs3
  · intro b
    rw [c3 b, c2 b, c1 b]
  · omega
  · omega
  · exact l3
  · omega
  · intro hl1 hl2 hl3
    have hl2a : r1.2.isLive r1.2.globalSocketThreadPool_ = true := by
      rw [gk1]; exact Process.isLive_mono g r1.2 _ m1 hl2
    have hl3a : r2.2.isLive r2.2.globalProcessorThreadPool_ = true := by
      rw [gp2, gp1]
      exact Process.isLive_mono r1.2 r2.2 _ m2 (Process.isLive_mono g r1.2 _ m1 hl3)
    have t1 := live1 hl1
    have t2 := live2 hl2a
    have t3 := live3 hl3a
    rw [gk1] at t2
    rw [gp2, gp1] at t3
    refine ⟨by omega, t1.1, t2.1, t3.1⟩
  · intro hidle
    have z := Process.count_of_idle g hidle
    have hin := hidle
    simp only [Process.idle, Bool.and_eq_true] at hin
    obtain ⟨⟨⟨-, -⟩, hin2⟩, hin3⟩ := hin
    have d1 : g.isLive g.globalServerThreadPool_ = false :=
      Process.not_isLive_of_dead g _ (fun a _ => z a)
    have t1 := dead1 d1
    have d2 : r1.2.isLive r1.2.globalSocketThreadPool_ = false := by
      rw [gk1]
      apply Process.not_isLive_of_dead
      intro a ha
      rw [ha] at hin2
      have hlt : a < g.heap.length := by simpa [Process.inHeap] using hin2
      have hne : a ≠ a1 := by omega
      rw [c1 a, z a]
      simp [hne]
    have t2 := dead2 d2
    have d3 : r2.2.isLive r2.2.globalProcessorThreadPool_ = false := by
      rw [gp2, gp1]
      apply Process.not_isLive_of_dead
      intro a ha
      rw [ha] at hin3
      have hlt : a < g.heap.length := by simpa [Process.inHeap] using hin3
      have hne1 : a ≠ a1 := by omega
      have hne2 : a ≠ a2 := by omega
      rw [c2 a, c1 a, z a]
      simp [hne1, hne2]
    have t3 := dead3 d3
    omega

end JQNetworkServer

/-! ## `begin` -/

namespace JQNetworkServer

theorem acquirePools_unchanged (env : Env) (s : JQNetworkServer) (g : Process) :
    (acquirePools env s g).1.self = s.self ∧
    (acquirePools env s g).1.serverSettings_ = s.serverSettings_ ∧
    (acquirePools env s g).1.connectPoolSettings_ = s.connectPoolSettings_ ∧
    (acquirePools env s g).1.connectSettings_ = s.connectSettings_ ∧
    (acquirePools env s g).1.tcpServer_ = s.tcpServer_ ∧
    (acquirePools env s g).1.connectPools_ = s.connectPools_ ∧
    (acquirePools env s g).1.processor_ = s.processor_ := by
  simp [acquirePools, acquireServerThreadPool_eq, acquireSocketThreadPool_eq,
    acquireProcessorThreadPool_eq]

theorem begin_result (env : Env) (s : JQNetworkServer) (g : Process) :
    (begin env s g).1 = env.listen s.serverSettings_.listenAddress s.serverSettings_.listenPort := by
  have h := (acquirePools_unchanged env s g).2.1
  cases hl : env.listen s.serverSettings_.listenAddress s.serverSettings_.listenPort <;>
    simp [begin, listenTask, h, hl]

theorem begin_of_listen_failed (env : Env) (s : JQNetworkServer) (g : Process)
    (hl : env.listen s.serverSettings_.listenAddress s.serverSettings_.listenPort = false) :
    begin env s g =
      (false,
        { (acquirePools env s g).1 with tcpServer_ := some ⟨s.self, false⟩ },
        (acquirePools env s g).2.onPool (held (acquirePools env s g).1.serverThreadPool_)
          (fun pool => pool.waitRun (Task.listen s.self))) := by
  have h := acquirePools_unchanged env s g
  simp [begin, listenTask, h.1, h.2.1, hl]

end JQNetworkServer

/-- C3: `begin()` fails exactly on bind failure.  For every server, every
prior state of the global pools and every environment, `begin()` returns
`true` if and only if `listen` on the configured address and port succeeded;
the NodeMark computation and the three pool acquisitions cannot change the
result. -/
theorem begin_true_iff_listen_succeeded (env : Env) (s : JQNetworkServer) (g : Process) :
    (begin env s g).1 = true ↔
      env.listen s.serverSettings_.listenAddress s.serverSettings_.listenPort = true := by
  rw [begin_result]

namespace Process

/-- What one pool acquisition does, whatever the member pointed to before. -/
theorem acquire_any (g : Process) (global held : Option PoolRef) (n : Nat) :
    ∃ a : Nat, (g.acquire global held n).1 = some a ∧
      (∀ b : Nat, (g.acquire global held n).2.count b =
        g.count b + (if b = a then 1 else 0) - (if held = some b then 1 else 0)) ∧
      (g.acquire global held n).2.globalServerThreadPool_ = g.globalServerThreadPool_ ∧
      (g.acquire global held n).2.globalSocketThreadPool_ = g.globalSocketThreadPool_ ∧
      (g.acquire global held n).2.globalProcessorThreadPool_ = g.globalProcessorThreadPool_ ∧
      a < (g.acquire global held n).2.heap.length ∧
      g.heap.length ≤ (g.acquire global held n).2.heap.length := by
  have rel : ∀ (p : Process) (b : Nat),
      (p.release held).count b = p.count b - (if held = some b then 1 else 0) := by
    intro p b
    cases held with
    | none => simp [release]
    | some h =>
      rw [count_release]
      by_cases q : b = h
      · subst q; simp
      · have q1 : ¬ (h = b) := fun e => q e.symm
        simp [q, q1]
  cases hl : g.isLive global with
  | true =>
    cases global with
    | none => simp [isLive] at hl
    | some a =>
      have hpos : 0 < g.count a := by simpa [isLive_some] using hl
      have hlt : a < g.heap.length := lt_length_of_count_pos g a hpos
      refine ⟨a, ?_, ?_, ?_, ?_, ?_, ?_, ?_⟩
      · simp [acquire, hl]
      · intro b
        simp only [acquire, hl, if_true]
        rw [rel, count_retain g a b hlt]
      · simp [acquire, hl]
      · simp [acquire, hl]
      · simp [acquire, hl]
      · simpa [acquire, hl] using hlt
      · simp [acquire, hl]
  | false =>
    refine ⟨g.heap.length, ?_, ?_, ?_, ?_, ?_, ?_, ?_⟩
    · simp [acquire, hl, allocate]
    · intro b
      simp only [acquire, hl, Bool.false_eq_true, if_false]
      rw [rel, count_allocate]
    · simp [acquire, hl, allocate]
    · simp [acquire, hl, allocate]
    · simp [acquire, hl, allocate]
    · simp [acquire, hl, allocate]
    · simp [acquire, hl, allocate]

end Process

namespace JQNetworkServer

theorem acquireServerThreadPool_any (s : JQNetworkServer) (g : Process) :
    ∃ a : Nat,
      (acquireServerThreadPool s g).1 = { s with serverThreadPool_ := some a } ∧
      (∀ b : Nat, (acquireServerThreadPool s g).2.count b =
        g.count b + (if b = a then 1 else 0) - (if s.serverThreadPool_ = some b then 1 else 0)) ∧
      (acquireServerThreadPool s g).2.globalServerThreadPool_ = some a ∧
      (acquireServerThreadPool s g).2.globalSocketThreadPool_ = g.globalSocketThreadPool_ ∧
      (acquireServerThreadPool s g).2.globalProcessorThreadPool_ = g.globalProcessorThreadPool_ ∧
      a < (acquireServerThreadPool s g).2.heap.length ∧
      g.heap.length ≤ (acquireServerThreadPool s g).2.heap.length := by
  obtain ⟨a, e, c, g1, g2, g3, l, l0⟩ :=
    Process.acquire_any g g.globalServerThreadPool_ s.serverThreadPool_ s.serverSettings_.globalServerThreadCount
  rw [acquireServerThreadPool_eq]
  simp only [e]
  exact ⟨a, rfl, c, rfl, by assumption, by assumption, l, l0⟩

theorem acquireSocketThreadPool_any (s : JQNetworkServer) (g : Process) :
    ∃ a : Nat,
      (acquireSocketThreadPool s g).1 = { s with socketThreadPool_ := some a } ∧
      (∀ b : Nat, (acquireSocketThreadPool s g).2.count b =
        g.count b + (if b = a then 1 else 0) - (if s.socketThreadPool_ = some b then 1 else 0)) ∧
      (acquireSocketThreadPool s g).2.globalSocketThreadPool_ = some a ∧
      (acquireSocketThreadPool s g).2.globalServerThreadPool_ = g.globalServerThreadPool_ ∧
      (acquireSocketThreadPool s g).2.globalProcessorThreadPool_ = g.globalProcessorThreadPool_ ∧
      a < (acquireSocketThreadPool s g).2.heap.length ∧
      g.heap.length ≤ (acquireSocketThreadPool s g).2.heap.length := by
  obtain ⟨a, e, c, g1, g2, g3, l, l0⟩ :=
    Process.acquire_any g g.globalSocketThreadPool_ s.socketThreadPool_ s.serverSettings_.globalSocketThreadCount
  rw [acquireSocketThreadPool_eq]
  simp only [e]
  exact ⟨a, rfl, c, rfl, by assumption, by assumption, l, l0⟩

theorem acquireProcessorThreadPool_any (s : JQNetworkServer) (g : Process) :
    ∃ a : Nat,
      (acquireProcessorThreadPool s g).1 = { s with processorThreadPool_ := some a } ∧
      (∀ b : Nat, (acquireProcessorThreadPool s g).2.count b =
        g.count b + (if b = a then 1 else 0) - (if s.processorThreadPool_ = some b then 1 else 0)) ∧
      (acquireProcessorThreadPool s g).2.globalProcessorThreadPool_ = some a ∧
      (acquireProcessorThreadPool s g).2.globalServerThreadPool_ = g.globalServerThreadPool_ ∧
      (acquireProcessorThreadPool s g).2.globalSocketThreadPool_ = g.globalSocketThreadPool_ ∧
      a < (acquireProcessorThreadPool s g).2.heap.length ∧
      g.heap.length ≤ (acquireProcessorThreadPool s g).2.heap.length := by
  obtain ⟨a, e, c, g1, g2, g3, l, l0⟩ :=
    Process.acquire_any g g.globalProcessorThreadPool_ s.processorThreadPool_ s.serverSettings_.globalProcessorThreadCount
  rw [acquireProcessorThreadPool_eq]
  simp only [e]
  exact ⟨a, rfl, c, rfl, by assumption, by assumption, l, l0⟩

/-- What lines 110-140 do, whatever the server held before. -/
theorem acquirePools_any (env : Env) (s : JQNetworkServer) (g : Process) :
    ∃ a1 a2 a3 : Nat,
      (acquirePools env s g).1.serverThreadPool_ = some a1 ∧
      (acquirePools env s g).1.socketThreadPool_ = some a2 ∧
      (acquirePools env s g).1.processorThreadPool_ = some a3 ∧
      (acquirePools env s g).2.globalServerThreadPool_ = some a1 ∧
      (acquirePools env s g).2.globalSocketThreadPool_ = some a2 ∧
      (acquirePools env s g).2.globalProcessorThreadPool_ = some a3 ∧
      a1 < (acquirePools env s g).2.heap.length ∧
      a2 < (acquirePools env s g).2.heap.length ∧
      a3 < (acquirePools env s g).2.heap.length ∧
      g.heap.length ≤ (acquirePools env s g).2.heap.length ∧
      (∀ b : Nat, (acquirePools env s g).2.count b =
        g.count b + (if b = a1 then 1 else 0) - (if s.serverThreadPool_ = some b then 1 else 0) +
          (if b = a2 then 1 else 0) - (if s.socketThreadPool_ = some b then 1 else 0) +
          (if b = a3 then 1 else 0) - (if s.processorThreadPool_ = some b then 1 else 0)) := by
  obtain ⟨a1, es1, c1, gs1, gk1, gp1, l1, m1⟩ :=
    acquireServerThreadPool_any
      { s with nodeMarkSummary_ := env.calculateNodeMarkSummary s.serverSettings_.dutyMark } g
  generalize hr1 : acquireServerThreadPool
    { s with nodeMarkSummary_ := env.calculateNodeMarkSummary s.serverSettings_.dutyMark } g = r1
    at es1 c1 gs1 gk1 gp1 l1 m1
  obtain ⟨a2, es2, c2, gs2, gk2, gp2, l2, m2⟩ := acquireSocketThreadPool_any r1.1 r1.2
  generalize hr2 : acquireSocketThreadPool r1.1 r1.2 = r2 at es2 c2 gs2 gk2 gp2 l2 m2
  obtain ⟨a3, es3, c3, gs3, gk3, gp3, l3, m3⟩ := acquireProcessorThreadPool_any r2.1 r2.2
  have hr : acquirePools env s g = acquireProcessorThreadPool r2.1 r2.2 := by
    simp only [acquirePools, hr1, hr2]
  generalize hr3 : acquireProcessorThreadPool r2.1 r2.2 = r3 at es3 c3 gs3 gk3 gp3 l3 m3 hr
  rw [hr]
  have k2 : r1.1.socketThreadPool_ = s.socketThreadPool_ := by rw [es1]
  have k3 : r2.1.processorThreadPool_ = s.processorThreadPool_ := by rw [es2, es1]
  refine ⟨a1, a2, a3, ?_, ?_, ?_, ?_, ?_, gs3, ?_, ?_, l3, ?_, ?_⟩
  · rw [es3, es2, es1]
  · rw [es3, es2]
  · rw [es3]
  · rw [gk3, gk2, gs1]
  · rw [gp3, gs2]
  · omega
  · omega
  · omega
  · intro b
    rw [c3 b, c2 b, c1 b, k2, k3]

theorem ownsHeld_iff (s : JQNetworkServer) (g : Process) :
    s.ownsHeld g = true ↔ ∀ b : Nat, s.holds b ≤ g.count b := by
  simp only [ownsHeld, List.all_cons, List.all_nil, Bool.and_true, Bool.and_eq_true]
  constructor
  · rintro ⟨h1, h2, h3⟩ b
    by_cases q1 : s.serverThreadPool_ = some b
    · rw [q1] at h1
      simpa using h1
    · by_cases q2 : s.socketThreadPool_ = some b
      · rw [q2] at h2
        simpa using h2
      · by_cases q3 : s.processorThreadPool_ = some b
        · rw [q3] at h3
          simpa using h3
        · simp [holds, q1, q2, q3]
  · intro h
    refine ⟨?_, ?_, ?_⟩
    · cases q : s.serverThreadPool_ with
      | none => rfl
      | some b => simpa using h b
    · cases q : s.socketThreadPool_ with
      | none => rfl
      | some b => simpa using h b
    · cases q : s.processorThreadPool_ with
      | none => rfl
      | some b => simpa using h b

end JQNetworkServer

/-- C4: a bind failure leaves nothing partially constructed.  Whenever
`listen` fails, for every server (started before or not) and every process,
`begin()` returns `false`, the thread-to-ConnectPool map is what it was before
the call, and each of the three pool members holds a constructed pool that is
the one the process-wide weak reference of its tier points to; the three
pools are moreover still owned whenever the pointers the server held before
the call were counted among the owners of their pools. -/
theorem begin_listen_failed_leaves_pools_whole (env : Env) (s : JQNetworkServer) (g : Process)
    (hl : env.listen s.serverSettings_.listenAddress s.serverSettings_.listenPort = false) :
    (begin env s g).1 = false ∧
    (begin env s g).2.1.connectPools_ = s.connectPools_ ∧
    ∃ a1 a2 a3 : Nat,
      ((begin env s g).2.1.serverThreadPool_ = some a1 ∧
        (begin env s g).2.2.globalServerThreadPool_ = some a1 ∧
        a1 < (begin env s g).2.2.heap.length) ∧
      ((begin env s g).2.1.socketThreadPool_ = some a2 ∧
        (begin env s g).2.2.globalSocketThreadPool_ = some a2 ∧
        a2 < (begin env s g).2.2.heap.length) ∧
      ((begin env s g).2.1.processorThreadPool_ = some a3 ∧
        (begin env s g).2.2.globalProcessorThreadPool_ = some a3 ∧
        a3 < (begin env s g).2.2.heap.length) ∧
      (s.ownsHeld g = true →
        (begin env s g).2.2.isLive (some a1) = true ∧
        (begin env s g).2.2.isLive (some a2) = true ∧
        (begin env s g).2.2.isLive (some a3) = true) := by
  obtain ⟨a1, a2, a3, e1, e2, e3, g1, g2, g3, l1, l2, l3, -, c⟩ := acquirePools_any env s g
  have hu := acquirePools_unchanged env s g
  rw [begin_of_listen_failed env s g hl]
  refine ⟨rfl, hu.2.2.2.2.2.1, a1, a2, a3, ⟨?_, ?_, ?_⟩, ⟨?_, ?_, ?_⟩, ⟨?_, ?_, ?_⟩, ?_⟩
  · simp [e1]
  · simp [g1]
  · simpa using l1
  · simp [e2]
  · simp [g2]
  · simpa using l2
  · simp [e3]
  · simp [g3]
  · simpa using l3
  · intro ho
    have hb := (ownsHeld_iff s g).mp ho
    have key : ∀ b : Nat, b = a1 ∨ b = a2 ∨ b = a3 → 0 < (acquirePools env s g).2.count b := by
      intro b hq
      have h0 := hb b
      simp only [holds] at h0
      rw [c b]
      rcases hq with q | q | q <;> subst q <;> split_ifs at h0 ⊢ <;> omega
    simp only [Process.isLive_some, Process.count_onPool, decide_eq_true_eq]
    exact ⟨key a1 (Or.inl rfl), key a2 (Or.inr (Or.inl rfl)), key a3 (Or.inr (Or.inr rfl))⟩

/-- C4, at server A, already started with a ConnectPool on each of its two
socket threads, calling `begin` again when the port is in use. -/
theorem begin_listen_failed_leaves_pools_whole_witness :
    Example.portInUse.listen Example.startedA.2.1.serverSettings_.listenAddress
      Example.startedA.2.1.serverSettings_.listenPort = false ∧
    Example.startedA.2.1.connectPools_.length = 2 ∧
    Example.startedA.2.1.ownsHeld Example.startedA.2.2 = true ∧
    Example.retriedA.1 = false ∧
    Example.retriedA.2.1.connectPools_ = Example.startedA.2.1.connectPools_ ∧
    Example.retriedA.2.1.socketThreadPool_ = some 1 ∧
    Example.retriedA.2.2.globalSocketThreadPool_ = some 1 ∧
    Example.retriedA.2.2.isLive (some 1) = true := by
  have h := begin_listen_failed_leaves_pools_whole Example.portInUse Example.startedA.2.1
    Example.startedA.2.2 (by decide)
  exact ⟨by decide, by decide, by decide, h.1, h.2.1, by decide, by decide, by decide⟩

namespace JQNetworkServer

theorem onEachThread_succ (a n : Nat) (body : JQNetworkServer → QThread → JQNetworkServer)
    (s : JQNetworkServer) :
    onEachThread a (n + 1) body s = body (onEachThread a n body s) (a, n) := by
  simp [onEachThread, List.range_succ, List.foldl_append]

theorem onEachThread_createConnectPool (a : Nat) (s : JQNetworkServer) (n : Nat) :
    (onEachThread a n createConnectPoolTask s).self = s.self ∧
    (onEachThread a n createConnectPoolTask s).serverSettings_ = s.serverSettings_ ∧
    (onEachThread a n createConnectPoolTask s).connectPoolSettings_ = s.connectPoolSettings_ ∧
    (onEachThread a n createConnectPoolTask s).connectSettings_ = s.connectSettings_ ∧
    (onEachThread a n createConnectPoolTask s).serverThreadPool_ = s.serverThreadPool_ ∧
    (onEachThread a n createConnectPoolTask s).socketThreadPool_ = s.socketThreadPool_ ∧
    (onEachThread a n createConnectPoolTask s).processorThreadPool_ = s.processorThreadPool_ ∧
    (onEachThread a n createConnectPoolTask s).tcpServer_ = s.tcpServer_ ∧
    (onEachThread a n createConnectPoolTask s).processor_ = s.processor_ ∧
    ∀ i : Nat, i < n →
      QMap.value (onEachThread a n createConnectPoolTask s).connectPools_ (a, i) =
        some (some (newConnectPool s)) := by
  induction n with
  | zero => simp [onEachThread]
  | succ n ih =>
    obtain ⟨i1, i2, i3, i4, i5, i6, i7, i8, i9, ih⟩ := ih
    rw [onEachThread_succ]
    refine ⟨i1, i2, i3, i4, i5, i6, i7, i8, i9, ?_⟩
    intro i hi
    have hnew : newConnectPool (onEachThread a n createConnectPoolTask s) = newConnectPool s := by
      simp [newConnectPool, i1, i3, i4]
    by_cases e : i = n
    · subst e
      simp only [createConnectPoolTask, hnew]
      exact QMap.value_set_self _ _ _
    · have hne : ((a, n) : QThread) ≠ (a, i) := by
        intro h
        exact e (Prod.mk.inj h).2.symm
      simp only [createConnectPoolTask, hnew]
      rw [QMap.value_set_other _ _ _ _ hne]
      exact ih i (by omega)

theorem begin_of_listen_succeeded (env : Env) (s : JQNetworkServer) (g : Process)
    (hl : env.listen s.serverSettings_.listenAddress s.serverSettings_.listenPort = true) :
    begin env s g =
      (true,
        onEachThread (held (acquirePools env s g).1.socketThreadPool_)
          (((acquirePools env s g).2.onPool (held (acquirePools env s g).1.serverThreadPool_)
            (fun pool => pool.waitRun (Task.listen s.self))).threadCount
              (held (acquirePools env s g).1.socketThreadPool_))
          createConnectPoolTask
          { (acquirePools env s g).1 with tcpServer_ := some ⟨s.self, true⟩ },
        ((acquirePools env s g).2.onPool (held (acquirePools env s g).1.serverThreadPool_)
          (fun pool => pool.waitRun (Task.listen s.self))).onPool
            (held (acquirePools env s g).1.socketThreadPool_)
            (fun pool => pool.waitRunEach (Task.createConnectPool s.self))) := by
  have h := acquirePools_unchanged env s g
  simp [begin, listenTask, h.1, h.2.1, hl, (onEachThread_createConnectPool _ _ _).1]

end JQNetworkServer

namespace Process

theorem threadCount_onPool (g : Process) (a b : Nat)
    (f : JQNetworkThreadPool → JQNetworkThreadPool)
    (hf : ∀ pool, (f pool).threadCount = pool.threadCount) :
    (g.onPool a f).threadCount b = g.threadCount b := by
  rcases Nat.lt_or_ge a g.heap.length with h | h
  · obtain ⟨c, hc⟩ : ∃ c, g.heap[a]? = some c := ⟨g.heap[a], List.getElem?_eq_getElem h⟩
    by_cases hb : b = a
    · subst hb
      simp [onPool, modify, store, threadCount, hc, getElem?_set_heap, h, hf]
    · simp [onPool, modify, store, threadCount, hc, getElem?_set_heap, h, hb, Ne.symm hb]
  · have hn : g.heap[a]? = none := List.getElem?_eq_none h
    simp [onPool, modify, hn]

end Process

/-- C8 (as stated) fails: server A is configured with the correlation range
`[1, 999999999]`; after a successful `begin()` the ConnectPool of socket
thread 0 has been given connect settings whose range starts at `1000000000`
and ends at `1999999999`. -/
theorem begin_overrides_configured_range :
    Example.startedA.1 = true ∧
    Example.startedA.2.1.connectSettings_.randomFlagRangeStart = 1 ∧
    Example.startedA.2.1.connectSettings_.randomFlagRangeEnd = 999999999 ∧
    Example.startedA.2.1.socketThreadPool_ = some 1 ∧
    ∃ cp, QMap.value Example.startedA.2.1.connectPools_ (1, 0) = some (some cp) ∧
      cp.connectSettings.randomFlagRangeStart = 1000000000 ∧
      cp.connectSettings.randomFlagRangeEnd = 1999999999 ∧
      cp.connectSettings.randomFlagRangeStart ≠
        Example.startedA.2.1.connectSettings_.randomFlagRangeStart :=
  ⟨by decide, by decide, by decide, by decide, newConnectPool Example.startedA.2.1,
    by decide, by decide, by decide, by decide⟩

/-- C8 (amended): after a successful `begin()` on a server that had not been
started, every socket thread has a ConnectPool whose connect settings are a
copy of the server's own connect settings in which the correlation range has
been overwritten with the fixed range `[1000000000, 1999999999]`. -/
theorem begin_gives_connect_pools_the_fixed_range (env : Env) (s : JQNetworkServer)
    (g : Process) (hs : s.notStarted = true) (hb : (begin env s g).1 = true) :
    ∃ a2 : Nat, (begin env s g).2.1.socketThreadPool_ = some a2 ∧
      ∀ i : Nat, i < (begin env s g).2.2.threadCount a2 →
        ∃ cp, QMap.value (begin env s g).2.1.connectPools_ (a2, i) = some (some cp) ∧
          cp.connectSettings =
            { s.connectSettings_ with
              randomFlagRangeStart := 1000000000
              randomFlagRangeEnd := 1999999999 } := by
  simp only [notStarted, Bool.and_eq_true, Option.isNone_iff_eq_none] at hs
  obtain ⟨⟨⟨⟨-, h1⟩, h2⟩, h3⟩, -⟩ := hs
  obtain ⟨a1, a2, a3, es, -⟩ := acquirePools_spec env s g h1 h2 h3
  have hu := acquirePools_unchanged env s g
  have hl : env.listen s.serverSettings_.listenAddress s.serverSettings_.listenPort = true := by
    rw [← begin_result env s g]; exact hb
  rw [begin_of_listen_succeeded env s g hl]
  have e2 : (acquirePools env s g).1.socketThreadPool_ = some a2 := by rw [es]
  simp only [e2, held]
  refine ⟨a2, ?_, ?_⟩
  · rw [(onEachThread_createConnectPool _ _ _).2.2.2.2.2.1]
  · intro i hi
    rw [Process.threadCount_onPool _ a2 a2
      (fun pool => pool.waitRunEach (Task.createConnectPool s.self)) (fun pool => rfl)] at hi
    refine ⟨_, (onEachThread_createConnectPool _ _ _).2.2.2.2.2.2.2.2.2 i hi, ?_⟩
    simp [newConnectPool, hu.2.2.2.1]

/-- C8 (amended), at server A started in a new process. -/
theorem begin_gives_connect_pools_the_fixed_range_witness :
    (Example.registeredA.notStarted = true ∧
      (begin Example.listening Example.registeredA Process.initial).1 = true) ∧
    ∃ a2 : Nat,
      (begin Example.listening Example.registeredA Process.initial).2.1.socketThreadPool_ =
        some a2 ∧
      ∀ i : Nat,
        i < (begin Example.listening Example.registeredA Process.initial).2.2.threadCount a2 →
        ∃ cp, QMap.value
            (begin Example.listening Example.registeredA Process.initial).2.1.connectPools_
            (a2, i) = some (some cp) ∧
          cp.connectSettings =
            { Example.registeredA.connectSettings_ with
              randomFlagRangeStart := 1000000000
              randomFlagRangeEnd := 1999999999 } :=
  ⟨⟨by decide, by decide⟩,
    begin_gives_connect_pools_the_fixed_range Example.listening Example.registeredA
      Process.initial (by decide) (by decide)⟩

/-! ## Accepting connections -/

namespace JQNetworkServer

theorem incomingConnection_spec (s : JQNetworkServer) (g : Process) (a : Nat)
    (cell : SharedPool) (socketDescriptor : Int)
    (ha : s.socketThreadPool_ = some a) (hc : g.heap[a]? = some cell) :
    incomingConnection s g socketDescriptor =
      some (g.store a { cell with pool :=
        { cell.pool with
          rotaryIndex := cell.pool.rotaryIndex + 1
          posted := cell.pool.posted ++
            [⟨Task.createConnect s.self ⟨s.self, cell.pool.rotaryIndex⟩ socketDescriptor,
              some (cell.pool.rotaryIndex % cell.pool.threadCount), false⟩] } }) := by
  simp [incomingConnection, ha, hc, JQNetworkThreadPool.nextRotaryIndex, JQNetworkThreadPool.run]

theorem runOnConnectThread_spec (r : RunOnConnectThreadCallback) (s : JQNetworkServer)
    (g : Process) (a : Nat) (cell : SharedPool) (callback : Task)
    (ha : s.socketThreadPool_ = some a) (hc : g.heap[a]? = some cell) :
    runOnConnectThread r s g callback =
      some (g.store a { cell with pool :=
        { cell.pool with
          posted := cell.pool.posted ++
            [⟨callback, some (r.rotaryIndex % cell.pool.threadCount), false⟩] } }) := by
  simp [runOnConnectThread, ha, hc, JQNetworkThreadPool.run]

theorem store_getElem?_self (g : Process) (a : Nat) (cell cell1 : SharedPool)
    (hc : g.heap[a]? = some cell) : (g.store a cell1).heap[a]? = some cell1 := by
  rcases Nat.lt_or_ge a g.heap.length with hlt | hge
  · simp [Process.store, hlt]
  · rw [List.getElem?_eq_none hge] at hc
    cases hc

theorem acceptAll_spec (s : JQNetworkServer) (a : Nat) (ha : s.socketThreadPool_ = some a)
    (sds : List Int) :
    ∀ (g : Process) (cell : SharedPool), g.heap[a]? = some cell →
      ∃ g1 cell1, acceptAll s g sds = some g1 ∧ g1.heap[a]? = some cell1 ∧
        cell1.pool.threadCount = cell.pool.threadCount ∧
        cell1.pool.rotaryIndex = cell.pool.rotaryIndex + sds.length ∧
        cell1.pool.posted = cell.pool.posted ++
          (sds.enumFrom cell.pool.rotaryIndex).map (fun ks =>
            ⟨Task.createConnect s.self ⟨s.self, ks.1⟩ ks.2,
              some (ks.1 % cell.pool.threadCount), false⟩) := by
  induction sds with
  | nil =>
    intro g cell hc
    exact ⟨g, cell, rfl, hc, rfl, rfl, by simp⟩
  | cons sd rest ih =>
    intro g cell hc
    have h1 := incomingConnection_spec s g a cell sd ha hc
    obtain ⟨g1, cell1, e1, e2, e3, e4, e5⟩ := ih _ _ (store_getElem?_self g a cell _ hc)
    refine ⟨g1, cell1, ?_, e2, ?_, ?_, ?_⟩
    · simp only [acceptAll, h1]
      exact e1
    · rw [e3]
    · rw [e4]
      simp only [List.length_cons]
      omega
    · rw [e5]
      simp [List.enumFrom_cons]

end JQNetworkServer

/-- C6 (as stated) fails: servers A and B share the global socket pool (pool
1, two workers).  The first socket A accepts (its socket number 0) is posted
to worker 0; the first socket B then accepts (its socket number 0) is posted
to worker 1, not to worker `0 mod 2`. -/
theorem incomingConnection_shared_pool_shifts_round_robin :
    Example.startedA.2.1.socketThreadPool_ = some 1 ∧
    Example.startedB.2.1.socketThreadPool_ = some 1 ∧
    Example.startedB.2.2.threadCount 1 = 2 ∧
    ∃ g1 g2,
      incomingConnection Example.startedA.2.1 Example.startedB.2.2 100 = some g1 ∧
      incomingConnection Example.startedB.2.1 g1 200 = some g2 ∧
      (g1.postedOn 1).getLast? = some ⟨Task.createConnect 1 ⟨1, 0⟩ 100, some 0, false⟩ ∧
      (g2.postedOn 1).getLast? = some ⟨Task.createConnect 2 ⟨2, 1⟩ 200, some 1, false⟩ ∧
      (g2.postedOn 1).filter (fun e => e.task matches Task.createConnect 2 _ _) =
        [⟨Task.createConnect 2 ⟨2, 1⟩ 200, some 1, false⟩] ∧
      (1 : Nat) ≠ 0 % 2 :=
  ⟨by decide, by decide, by decide, _, _, rfl, rfl, by decide, by decide, by decide,
    by decide⟩

/-- C6 (amended): round robin follows the rotary counter of the socket pool,
which every server sharing the pool advances.  When a server whose socket
pool has `n` workers and counter value `c` accepts a run of sockets, the
`k`-th of them (from 0) is posted as a `createConnect` task to worker
`(c + k) mod n`, together with an affinity closure that re-posts every later
task to that same worker; with `c = 0` this is worker `k mod n`. -/
theorem incomingConnection_round_robin_from_counter
    (s : JQNetworkServer) (g : Process) (a : Nat) (cell : SharedPool) (sds : List Int)
    (ha : s.socketThreadPool_ = some a) (hc : g.heap[a]? = some cell) :
    ∃ g1, acceptAll s g sds = some g1 ∧
      (g1.postedOn a).length = (g.postedOn a).length + sds.length ∧
      ∀ (k : Nat) (sd : Int), sds[k]? = some sd →
        (g1.postedOn a)[(g.postedOn a).length + k]? =
          some ⟨Task.createConnect s.self ⟨s.self, cell.pool.rotaryIndex + k⟩ sd,
            some ((cell.pool.rotaryIndex + k) % cell.pool.threadCount), false⟩ ∧
        ∀ (g2 : Process) (cell2 : SharedPool) (callback : Task),
          g2.heap[a]? = some cell2 → cell2.pool.threadCount = cell.pool.threadCount →
          ∃ g3, runOnConnectThread ⟨s.self, cell.pool.rotaryIndex + k⟩ s g2 callback = some g3 ∧
            g3.postedOn a = g2.postedOn a ++
              [⟨callback, some ((cell.pool.rotaryIndex + k) % cell.pool.threadCount), false⟩] := by
  obtain ⟨g1, cell1, e1, e2, -, -, e5⟩ := acceptAll_spec s a ha sds g cell hc
  have p0 : g.postedOn a = cell.pool.posted := by simp [Process.postedOn, hc]
  have p1 : g1.postedOn a = cell1.pool.posted := by simp [Process.postedOn, e2]
  refine ⟨g1, e1, ?_, ?_⟩
  · rw [p0, p1, e5]
    simp
  · intro k sd hk
    constructor
    · rw [p0, p1, e5, List.getElem?_append_right (Nat.le_add_right _ _)]
      simp [hk]
    · intro g2 cell2 callback h2 hn
      refine ⟨_, runOnConnectThread_spec _ s g2 a cell2 callback ha h2, ?_⟩
      rw [postedOn_set_self g2 a cell2 _ h2]
      simp [Process.postedOn, h2, hn]

/-- C6 (amended), at server A alone in a new process accepting three sockets. -/
theorem incomingConnection_round_robin_from_counter_witness :
    (Example.startedA.2.1.socketThreadPool_ = some 1 ∧
      Example.startedA.2.2.heap[1]? = some
        ⟨1, ⟨2, 0, [⟨Task.createConnectPool 1, some 0, true⟩,
          ⟨Task.createConnectPool 1, some 1, true⟩]⟩⟩) ∧
    ∃ g1, acceptAll Example.startedA.2.1 Example.startedA.2.2 [100, 101, 102] = some g1 ∧
      (g1.postedOn 1)[2 + 2]? =
        some ⟨Task.createConnect 1 ⟨1, 2⟩ 102, some (2 % 2), false⟩ := by
  obtain ⟨g1, h1, -, h3⟩ := incomingConnection_round_robin_from_counter Example.startedA.2.1
    Example.startedA.2.2 1 _ [100, 101, 102] (by decide) (by decide : Example.startedA.2.2.heap[1]? = some
        ⟨1, ⟨2, 0, [⟨Task.createConnectPool 1, some 0, true⟩,
          ⟨Task.createConnectPool 1, some 1, true⟩]⟩⟩)
  exact ⟨⟨by decide, by decide⟩, g1, h1, (h3 2 102 (by decide)).1⟩

/-! ## Start and destruction as seen by the reference counts -/

namespace JQNetworkServer

theorem onEachThread_clearConnectPool (a : Nat) (s : JQNetworkServer) (n : Nat) :
    (onEachThread a n clearConnectPoolTask s).self = s.self ∧
    (onEachThread a n clearConnectPoolTask s).serverThreadPool_ = s.serverThreadPool_ ∧
    (onEachThread a n clearConnectPoolTask s).socketThreadPool_ = s.socketThreadPool_ ∧
    (onEachThread a n clearConnectPoolTask s).processorThreadPool_ = s.processorThreadPool_ ∧
    (onEachThread a n clearConnectPoolTask s).tcpServer_ = s.tcpServer_ ∧
    (onEachThread a n clearConnectPoolTask s).processor_ = s.processor_ ∧
    ∀ thread : QThread,
      QMap.value (onEachThread a n clearConnectPoolTask s).connectPools_ thread =
        if thread.1 = a ∧ thread.2 < n then some none
        else QMap.value s.connectPools_ thread := by
  induction n with
  | zero => simp [onEachThread]
  | succ n ih =>
    obtain ⟨i1, i2, i3, i4, i5, i6, ih⟩ := ih
    rw [onEachThread_succ]
    refine ⟨i1, i2, i3, i4, i5, i6, ?_⟩
    intro thread
    obtain ⟨p, i⟩ := thread
    simp only [clearConnectPoolTask]
    by_cases e : ((a, n) : QThread) = (p, i)
    · cases e
      rw [QMap.value_set_self]
      simp
    · rw [QMap.value_set_other _ _ _ _ e, ih (p, i)]
      have hne : ¬ (p = a ∧ i = n) := by
        rintro ⟨rfl, rfl⟩
        exact e rfl
      by_cases hp : p = a
      · have hi : i ≠ n := fun h => hne ⟨hp, h⟩
        have : (i < n + 1) ↔ (i < n) := by omega
        simp [hp, this]
      · simp [hp]

/-- What `begin` does to a server that has not been started. -/
theorem begin_spec (env : Env) (s : JQNetworkServer) (g : Process) (hs : s.notStarted = true) :
    ∃ a1 a2 a3 : Nat,
      (begin env s g).2.1.serverThreadPool_ = some a1 ∧
      (begin env s g).2.1.socketThreadPool_ = some a2 ∧
      (begin env s g).2.1.processorThreadPool_ = some a3 ∧
      (begin env s g).2.1.tcpServer_.isSome = true ∧
      (begin env s g).2.2.globalServerThreadPool_ = some a1 ∧
      (begin env s g).2.2.globalSocketThreadPool_ = some a2 ∧
      (begin env s g).2.2.globalProcessorThreadPool_ = some a3 ∧
      (∀ b : Nat, (begin env s g).2.2.count b =
        g.count b + (if b = a1 then 1 else 0) + (if b = a2 then 1 else 0) +
          (if b = a3 then 1 else 0)) ∧
      a1 < (begin env s g).2.2.heap.length ∧
      a2 < (begin env s g).2.2.heap.length ∧
      a3 < (begin env s g).2.2.heap.length ∧
      g.heap.length ≤ (begin env s g).2.2.heap.length ∧
      (g.isLive g.globalServerThreadPool_ = true → g.isLive g.globalSocketThreadPool_ = true →
        g.isLive g.globalProcessorThreadPool_ = true →
        (begin env s g).2.2.heap.length = g.heap.length ∧
        g.globalServerThreadPool_ = some a1 ∧ g.globalSocketThreadPool_ = some a2 ∧
        g.globalProcessorThreadPool_ = some a3) ∧
      (g.idle = true →
        (begin env s g).2.2.heap.length = g.heap.length + 3 ∧
        a1 = g.heap.length ∧ a2 = g.heap.length + 1 ∧ a3 = g.heap.length + 2) ∧
      (g.isLive g.globalServerThreadPool_ = true → g.globalServerThreadPool_ = some a1) ∧
      (g.isLive g.globalSocketThreadPool_ = true → g.globalSocketThreadPool_ = some a2) ∧
      (g.isLive g.globalProcessorThreadPool_ = true → g.globalProcessorThreadPool_ = some a3) := by
  simp only [notStarted, Bool.and_eq_true, Option.isNone_iff_eq_none] at hs
  obtain ⟨⟨⟨⟨-, h1⟩, h2⟩, h3⟩, -⟩ := hs
  obtain ⟨a1, a2, a3, es, g1, g2, g3, c, l1, l2, l3, l0, hlive, hidle, L1, L2, L3⟩ :=
    acquirePools_spec env s g h1 h2 h3
  refine ⟨a1, a2, a3, ?_⟩
  cases hl : env.listen s.serverSettings_.listenAddress s.serverSettings_.listenPort with
  | false =>
    rw [begin_of_listen_failed env s g hl]
    refine ⟨?_, ?_, ?_, rfl, ?_, ?_, ?_, ?_, ?_, ?_, ?_, ?_, ?_, ?_, L1, L2, L3⟩
    · simp [es]
    · simp [es]
    · simp [es]
    · simp [g1]
    · simp [g2]
    · simp [g3]
    · intro b
      simp only [Process.count_onPool]
      exact c b
    · simpa using l1
    · simpa using l2
    · simpa using l3
    · simpa using l0
    · simpa using hlive
    · simpa using hidle
  | true =>
    rw [begin_of_listen_succeeded env s g hl]
    have hf := onEachThread_createConnectPool (held (acquirePools env s g).1.socketThreadPool_)
      { (acquirePools env s g).1 with tcpServer_ := some ⟨s.self, true⟩ }
      (((acquirePools env s g).2.onPool (held (acquirePools env s g).1.serverThreadPool_)
        (fun pool => pool.waitRun (Task.listen s.self))).threadCount
          (held (acquirePools env s g).1.socketThreadPool_))
    obtain ⟨-, -, -, -, f5, f6, f7, f8, -, -⟩ := hf
    refine ⟨?_, ?_, ?_, ?_, ?_, ?_, ?_, ?_, ?_, ?_, ?_, ?_, ?_, ?_, L1, L2, L3⟩
    · simp only [f5]; simp [es]
    · simp only [f6]; simp [es]
    · simp only [f7]; simp [es]
    · simp only [f8]; rfl
    · simp [g1]
    · simp [g2]
    · simp [g3]
    · intro b
      simp only [Process.count_onPool]
      exact c b
    · simpa using l1
    · simpa using l2
    · simpa using l3
    · simpa using l0
    · simpa using hlive
    · simpa using hidle

theorem destructor_of_started (s : JQNetworkServer) (g : Process) (a1 a2 : Nat)
    (ht : s.tcpServer_.isSome = true)
    (h1 : s.serverThreadPool_ = some a1) (h2 : s.socketThreadPool_ = some a2)
    (l1 : a1 < g.heap.length) (l2 : a2 < g.heap.length) :
    destructor s g =
      some (onEachThread a2
          (((g.onPool a1 (fun pool => pool.waitRun (Task.close s.self))).onPool a2
            (fun pool => pool.waitRunEach (Task.clearConnectPool s.self))).threadCount a2)
          clearConnectPoolTask (closeTask s),
        (g.onPool a1 (fun pool => pool.waitRun (Task.close s.self))).onPool a2
          (fun pool => pool.waitRunEach (Task.clearConnectPool s.self))) := by
  have hn : s.tcpServer_.isNone = false := by
    cases h : s.tcpServer_ with
    | none => simp [h] at ht
    | some t => rfl
  simp [destructor, hn, h1, h2, l1, l2, closeTask]

/-- What the destruction of a started server does to the reference counts. -/
theorem destroy_spec (s : JQNetworkServer) (g : Process) (a1 a2 a3 : Nat)
    (ht : s.tcpServer_.isSome = true)
    (h1 : s.serverThreadPool_ = some a1) (h2 : s.socketThreadPool_ = some a2)
    (h3 : s.processorThreadPool_ = some a3)
    (l1 : a1 < g.heap.length) (l2 : a2 < g.heap.length) :
    ∃ g1, destroy s g = some g1 ∧
      (∀ b : Nat, g1.count b =
        g.count b - (if b = a3 then 1 else 0) - (if b = a2 then 1 else 0) -
          (if b = a1 then 1 else 0)) ∧
      g1.globalServerThreadPool_ = g.globalServerThreadPool_ ∧
      g1.globalSocketThreadPool_ = g.globalSocketThreadPool_ ∧
      g1.globalProcessorThreadPool_ = g.globalProcessorThreadPool_ ∧
      g1.heap.length = g.heap.length := by
  have hc := onEachThread_clearConnectPool a2 (closeTask s)
    (((g.onPool a1 (fun pool => pool.waitRun (Task.close s.self))).onPool a2
      (fun pool => pool.waitRunEach (Task.clearConnectPool s.self))).threadCount a2)
  obtain ⟨-, c2, c3, c4, -, -, -⟩ := hc
  rw [destroy, destructor_of_started s g a1 a2 ht h1 h2 l1 l2]
  refine ⟨_, rfl, ?_, ?_, ?_, ?_, ?_⟩
  · intro b
    simp only [releaseMembers, c2, c3, c4]
    simp only [closeTask, h1, h2, h3, Process.count_release, Process.count_onPool]
  · simp [releaseMembers]
  · simp [releaseMembers]
  · simp [releaseMembers]
  · simp [releaseMembers]

end JQNetworkServer

namespace Process

theorem idle_of_counts (g : Process) (z : ∀ b : Nat, g.count b = 0)
    (i1 : g.inHeap g.globalServerThreadPool_ = true)
    (i2 : g.inHeap g.globalSocketThreadPool_ = true)
    (i3 : g.inHeap g.globalProcessorThreadPool_ = true) : g.idle = true := by
  simp only [idle, Bool.and_eq_true, List.all_eq_true, beq_iff_eq]
  refine ⟨⟨⟨?_, i1⟩, i2⟩, i3⟩
  intro c hc
  obtain ⟨n, hn⟩ := List.mem_iff_getElem?.mp hc
  have := z n
  simpa [count, hn] using this

theorem onePerTier_iff (g : Process) :
    g.onePerTier = true ↔
      ∀ b : Nat, 0 < g.count b →
        g.globalServerThreadPool_ = some b ∨ g.globalSocketThreadPool_ = some b ∨
          g.globalProcessorThreadPool_ = some b := by
  simp only [onePerTier, List.all_eq_true, List.mem_range, Bool.or_eq_true, decide_eq_true_eq]
  constructor
  · intro h b hb
    rcases h b (lt_length_of_count_pos g b hb) with ((h0 | h1) | h2) | h3
    · omega
    · exact Or.inl h1
    · exact Or.inr (Or.inl h2)
    · exact Or.inr (Or.inr h3)
  · intro h b _
    by_cases h0 : g.count b = 0
    · exact Or.inl (Or.inl (Or.inl h0))
    · rcases h b (by omega) with h1 | h2 | h3
      · exact Or.inl (Or.inl (Or.inr h1))
      · exact Or.inl (Or.inr h2)
      · exact Or.inr h3

theorem live_of_count (g : Process) (w : Option PoolRef) (a : Nat) (hw : w = some a)
    (h : 0 < g.count a) : g.isLive w = true := by
  subst hw
  simp [isLive_some, h]

end Process

/-- C5: the three global pools are shared and reference counted.  Servers
`A` and `B` have not been started; `A` begins in process `g` and then `B`
begins.  Then `B` holds the very pools `A` holds and no pool is constructed
for `B`; if every owned pool of `g` was the pool of a tier, the same holds
afterwards (at most one live pool per tier); destroying only `A`, or only
`B`, leaves all three weak references live; and when no pool was owned in
`g`, destroying both leaves no pool owned and the weak references dead, so
that a later `begin()` of a server `C` constructs three new pools. -/
theorem global_pools_shared_and_reference_counted
    (envA envB envC : Env) (A B C : JQNetworkServer) (g : Process)
    (rA rB : Bool × JQNetworkServer × Process)
    (hA : A.notStarted = true) (hB : B.notStarted = true) (hC : C.notStarted = true)
    (hrA : begin envA A g = rA) (hrB : begin envB B rA.2.2 = rB) :
    ∃ a1 a2 a3 : Nat,
      (rA.2.1.serverThreadPool_ = some a1 ∧ rA.2.1.socketThreadPool_ = some a2 ∧
        rA.2.1.processorThreadPool_ = some a3) ∧
      (rB.2.1.serverThreadPool_ = some a1 ∧ rB.2.1.socketThreadPool_ = some a2 ∧
        rB.2.1.processorThreadPool_ = some a3 ∧
        rB.2.2.heap.length = rA.2.2.heap.length) ∧
      (g.onePerTier = true → rA.2.2.onePerTier = true ∧ rB.2.2.onePerTier = true) ∧
      (∃ g1, destroy rA.2.1 rB.2.2 = some g1 ∧
        g1.globalServerThreadPool_ = some a1 ∧ g1.isLive (some a1) = true ∧
        g1.globalSocketThreadPool_ = some a2 ∧ g1.isLive (some a2) = true ∧
        g1.globalProcessorThreadPool_ = some a3 ∧ g1.isLive (some a3) = true) ∧
      (∃ g1, destroy rB.2.1 rB.2.2 = some g1 ∧
        g1.globalServerThreadPool_ = some a1 ∧ g1.isLive (some a1) = true ∧
        g1.globalSocketThreadPool_ = some a2 ∧ g1.isLive (some a2) = true ∧
        g1.globalProcessorThreadPool_ = some a3 ∧ g1.isLive (some a3) = true) ∧
      (g.idle = true →
        ∃ (g1 g2 : Process) (c1 c2 c3 : Nat),
          destroy rA.2.1 rB.2.2 = some g1 ∧ destroy rB.2.1 g1 = some g2 ∧
          (∀ b : Nat, g2.count b = 0) ∧
          g2.isLive g2.globalServerThreadPool_ = false ∧
          g2.isLive g2.globalSocketThreadPool_ = false ∧
          g2.isLive g2.globalProcessorThreadPool_ = false ∧
          (begin envC C g2).2.1.serverThreadPool_ = some c1 ∧
          (begin envC C g2).2.1.socketThreadPool_ = some c2 ∧
          (begin envC C g2).2.1.processorThreadPool_ = some c3 ∧
          (begin envC C g2).2.2.heap.length = g2.heap.length + 3 ∧
          g2.heap.length ≤ c1 ∧ g2.heap.length ≤ c2 ∧ g2.heap.length ≤ c3 ∧
          c1 ≠ a1 ∧ c2 ≠ a2 ∧ c3 ≠ a3) := by
  subst hrA
  subst hrB
  obtain ⟨a1, a2, a3, sA1, sA2, sA3, tA, gA1, gA2, gA3, cA, lA1, lA2, lA3, -, -, -,
    LA1, LA2, LA3⟩ := begin_spec envA A g hA
  generalize begin envA A g = rA at *
  have lvA1 : rA.2.2.isLive rA.2.2.globalServerThreadPool_ = true :=
    Process.live_of_count _ _ a1 gA1 (by rw [cA a1]; simp)
  have lvA2 : rA.2.2.isLive rA.2.2.globalSocketThreadPool_ = true :=
    Process.live_of_count _ _ a2 gA2 (by rw [cA a2]; simp)
  have lvA3 : rA.2.2.isLive rA.2.2.globalProcessorThreadPool_ = true :=
    Process.live_of_count _ _ a3 gA3 (by rw [cA a3]; simp)
  obtain ⟨b1, b2, b3, sB1, sB2, sB3, tB, gB1, gB2, gB3, cB, -, -, -, -, liveB, -,
    -, -, -⟩ := begin_spec envB B rA.2.2 hB
  generalize begin envB B rA.2.2 = rB at *
  obtain ⟨lenB, e1, e2, e3⟩ := liveB lvA1 lvA2 lvA3
  obtain rfl : a1 = b1 := Option.some.inj (gA1.symm.trans e1)
  obtain rfl : a2 = b2 := Option.some.inj (gA2.symm.trans e2)
  obtain rfl : a3 = b3 := Option.some.inj (gA3.symm.trans e3)
  have invA : g.onePerTier = true → rA.2.2.onePerTier = true := by
    rw [Process.onePerTier_iff, Process.onePerTier_iff]
    intro hinv b hb
    by_cases q1 : b = a1
    · exact Or.inl (by rw [gA1, q1])
    · by_cases q2 : b = a2
      · exact Or.inr (Or.inl (by rw [gA2, q2]))
      · by_cases q3 : b = a3
        · exact Or.inr (Or.inr (by rw [gA3, q3]))
        · exfalso
          have hg : 0 < g.count b := by
            have := cA b
            simp only [q1, q2, q3, if_false] at this
            omega
          rcases hinv b hg with h | h | h
          · have := LA1 (Process.live_of_count g _ b h hg)
            exact q1 (Option.some.inj (h.symm.trans this))
          · have := LA2 (Process.live_of_count g _ b h hg)
            exact q2 (Option.some.inj (h.symm.trans this))
          · have := LA3 (Process.live_of_count g _ b h hg)
            exact q3 (Option.some.inj (h.symm.trans this))
  have invB : rA.2.2.onePerTier = true → rB.2.2.onePerTier = true := by
    rw [Process.onePerTier_iff, Process.onePerTier_iff]
    intro hinv b hb
    by_cases q1 : b = a1
    · exact Or.inl (by rw [gB1, q1])
    · by_cases q2 : b = a2
      · exact Or.inr (Or.inl (by rw [gB2, q2]))
      · by_cases q3 : b = a3
        · exact Or.inr (Or.inr (by rw [gB3, q3]))
        · exfalso
          have hg : 0 < rA.2.2.count b := by
            have := cB b
            simp only [q1, q2, q3, if_false] at this
            omega
          rcases hinv b hg with h | h | h
          · exact q1 (Option.some.inj (h.symm.trans gA1))
          · exact q2 (Option.some.inj (h.symm.trans gA2))
          · exact q3 (Option.some.inj (h.symm.trans gA3))
  have lB1 : a1 < rB.2.2.heap.length := by omega
  have lB2 : a2 < rB.2.2.heap.length := by omega
  obtain ⟨gx, dx, cx, x1, x2, x3, lx⟩ :=
    destroy_spec rA.2.1 rB.2.2 a1 a2 a3 tA sA1 sA2 sA3 lB1 lB2
  obtain ⟨gy, dy, cy, y1, y2, y3, -⟩ :=
    destroy_spec rB.2.1 rB.2.2 a1 a2 a3 tB sB1 sB2 sB3 lB1 lB2
  have key : ∀ b : Nat, b = a1 ∨ b = a2 ∨ b = a3 →
      0 < rB.2.2.count b - (if b = a3 then 1 else 0) - (if b = a2 then 1 else 0) -
        (if b = a1 then 1 else 0) := by
    intro b hb
    rw [cB b, cA b]
    rcases hb with h | h | h <;> subst h <;> split_ifs <;> omega
  refine ⟨a1, a2, a3, ⟨sA1, sA2, sA3⟩, ⟨sB1, sB2, sB3, lenB⟩,
    fun hinv => ⟨invA hinv, invB (invA hinv)⟩, ?_, ?_, ?_⟩
  · refine ⟨gx, dx, x1.trans gB1, ?_, x2.trans gB2, ?_, x3.trans gB3, ?_⟩
    · have hk := key a1 (Or.inl rfl)
      rw [← cx a1] at hk
      simpa [Process.isLive_some] using hk
    · have hk := key a2 (Or.inr (Or.inl rfl))
      rw [← cx a2] at hk
      simpa [Process.isLive_some] using hk
    · have hk := key a3 (Or.inr (Or.inr rfl))
      rw [← cx a3] at hk
      simpa [Process.isLive_some] using hk
  · refine ⟨gy, dy, y1.trans gB1, ?_, y2.trans gB2, ?_, y3.trans gB3, ?_⟩
    · have hk := key a1 (Or.inl rfl)
      rw [← cy a1] at hk
      simpa [Process.isLive_some] using hk
    · have hk := key a2 (Or.inr (Or.inl rfl))
      rw [← cy a2] at hk
      simpa [Process.isLive_some] using hk
    · have hk := key a3 (Or.inr (Or.inr rfl))
      rw [← cy a3] at hk
      simpa [Process.isLive_some] using hk
  · intro hidle
    have z := Process.count_of_idle g hidle
    have lx1 : a1 < gx.heap.length := by omega
    have lx2 : a2 < gx.heap.length := by omega
    have lx3 : a3 < gx.heap.length := by omega
    obtain ⟨gz, dz, cz, z1, z2, z3, lz⟩ :=
      destroy_spec rB.2.1 gx a1 a2 a3 tB sB1 sB2 sB3 lx1 lx2
    have zero : ∀ b : Nat, gz.count b = 0 := by
      intro b
      rw [cz b, cx b, cB b, cA b, z b]
      split_ifs <;> omega
    have w1 : gz.globalServerThreadPool_ = some a1 := z1.trans (x1.trans gB1)
    have w2 : gz.globalSocketThreadPool_ = some a2 := z2.trans (x2.trans gB2)
    have w3 : gz.globalProcessorThreadPool_ = some a3 := z3.trans (x3.trans gB3)
    have hidz : gz.idle = true := by
      apply Process.idle_of_counts gz zero
      · have hlt : a1 < gz.heap.length := by omega
        simpa [w1, Process.inHeap] using hlt
      · have hlt : a2 < gz.heap.length := by omega
        simpa [w2, Process.inHeap] using hlt
      · have hlt : a3 < gz.heap.length := by omega
        simpa [w3, Process.inHeap] using hlt
    obtain ⟨c1, c2, c3, sC1, sC2, sC3, -, -, -, -, -, -, -, -, -, -, idleC, -⟩ :=
      begin_spec envC C gz hC
    obtain ⟨lenC, q1, q2, q3⟩ := idleC hidz
    refine ⟨gx, gz, c1, c2, c3, dx, dz, zero,
      Process.not_isLive_of_dead gz _ (fun a _ => zero a),
      Process.not_isLive_of_dead gz _ (fun a _ => zero a),
      Process.not_isLive_of_dead gz _ (fun a _ => zero a),
      sC1, sC2, sC3, lenC, ?_, ?_, ?_, ?_, ?_, ?_⟩ <;> omega

/-- C5, at servers A and B started one after the other in a new process, with
a third server C started after both have been destroyed. -/
theorem global_pools_shared_and_reference_counted_witness :
    (Example.registeredA.notStarted = true ∧ Example.serverB.notStarted = true ∧
      Example.serverC.notStarted = true ∧
      begin Example.listening Example.registeredA Process.initial = Example.startedA ∧
      begin Example.listening Example.serverB Example.startedA.2.2 = Example.startedB) ∧
    Example.startedB.2.1.socketThreadPool_ = Example.startedA.2.1.socketThreadPool_ ∧
    Example.startedB.2.2.heap.length = 3 ∧
    Example.startedB.2.2.onePerTier = true ∧
    (destroy Example.startedA.2.1 Example.startedB.2.2).map
      (fun g1 => g1.isLive g1.globalSocketThreadPool_) = some true ∧
    ((destroy Example.startedA.2.1 Example.startedB.2.2).bind
      (fun g1 => destroy Example.startedB.2.1 g1)).map
      (fun g2 => g2.isLive g2.globalSocketThreadPool_) = some false := by
  have h := global_pools_shared_and_reference_counted Example.listening Example.listening
    Example.listening Example.registeredA Example.serverB Example.serverC Process.initial
    Example.startedA Example.startedB (by decide) (by decide) (by decide) rfl rfl
  obtain ⟨a1, a2, a3, ⟨-, hA2, -⟩, ⟨-, hB2, -, hlen⟩, hinv, ⟨g1, d1, -, -, s2, l2, -⟩, -,
    hboth⟩ := h
  obtain ⟨g1a, g2, c1, c2, c3, d1a, d2, -, -, dead2, -⟩ := hboth (by decide)
  refine ⟨⟨by decide, by decide, by decide, rfl, rfl⟩, ?_, ?_, (hinv (by decide)).2, ?_, ?_⟩
  · rw [hA2, hB2]
  · rw [hlen]; decide
  · rw [d1]
    simp only [Option.map_some', s2, l2]
  · rw [d1a]
    simp only [Option.some_bind, d2, Option.map_some', dead2]

/-! ## The destructor -/

namespace QMap

variable {κ ν : Type} [DecidableEq κ]

theorem mem_of_value (m : QMap κ ν) (k : κ) (v : ν) (h : value m k = some v) : (k, v) ∈ m := by
  induction m with
  | nil => simp [value] at h
  | cons hd tl ih =>
    obtain ⟨k1, v1⟩ := hd
    by_cases e : k1 = k
    · subst e
      simp only [value, if_true, Option.some.injEq] at h
      subst h
      exact List.mem_cons_self _ _
    · simp only [value, e, if_false] at h
      exact List.mem_cons_of_mem _ (ih h)

theorem mem_set (m : QMap κ ν) (k : κ) (v : ν) (e : κ × ν) (h : e ∈ set m k v) :
    e ∈ m ∨ e = (k, v) := by
  induction m with
  | nil =>
    simp only [set, List.mem_singleton] at h
    exact Or.inr h
  | cons hd tl ih =>
    obtain ⟨k1, v1⟩ := hd
    by_cases q : k1 = k
    · simp only [set, q, if_true, List.mem_cons] at h
      rcases h with h | h
      · exact Or.inr h
      · exact Or.inl (List.mem_cons_of_mem _ h)
    · simp only [set, q, if_false, List.mem_cons] at h
      rcases h with h | h
      · exact Or.inl (by rw [h]; exact List.mem_cons_self _ _)
      · rcases ih h with h1 | h1
        · exact Or.inl (List.mem_cons_of_mem _ h1)
        · exact Or.inr h1

end QMap

namespace Process

theorem postedOn_onPool_self (g : Process) (a : Nat) (cell : SharedPool)
    (f : JQNetworkThreadPool → JQNetworkThreadPool) (hc : g.heap[a]? = some cell) :
    (g.onPool a f).postedOn a = (f cell.pool).posted := by
  simp only [onPool, modify, hc]
  rw [postedOn_set_self g a cell _ hc]

theorem postedOn_onPool_other (g : Process) (a b : Nat)
    (f : JQNetworkThreadPool → JQNetworkThreadPool) (h : b ≠ a) :
    (g.onPool a f).postedOn b = g.postedOn b := by
  cases hc : g.heap[a]? with
  | none => simp [onPool, modify, hc]
  | some cell =>
    simp only [onPool, modify, hc]
    exact postedOn_set_other g a b _ h

end Process

namespace JQNetworkServer

theorem threadCount_after_shutdown_posts (g : Process) (accept socket self : Nat) :
    ((g.onPool accept (fun pool => pool.waitRun (Task.close self))).onPool socket
      (fun pool => pool.waitRunEach (Task.clearConnectPool self))).threadCount socket =
      g.threadCount socket := by
  rw [Process.threadCount_onPool _ socket socket
    (fun pool => pool.waitRunEach (Task.clearConnectPool self)) (fun pool => rfl)]
  rw [Process.threadCount_onPool _ accept socket
    (fun pool => pool.waitRun (Task.close self)) (fun pool => rfl)]

theorem destructor_not_started (t : JQNetworkServer) (g : Process) (ht : t.notStarted = true) :
    destructor t g = some (t, g) ∧ destroy t g = some g := by
  simp only [notStarted, Bool.and_eq_true, Option.isNone_iff_eq_none] at ht
  obtain ⟨⟨⟨⟨h0, h1⟩, h2⟩, h3⟩, -⟩ := ht
  have hd : destructor t g = some (t, g) := by simp [destructor, h0]
  refine ⟨hd, ?_⟩
  simp [destroy, hd, releaseMembers, h1, h2, h3, Process.release]

end JQNetworkServer

namespace Process

theorem getElem?_onPool_other (g : Process) (a b : Nat)
    (f : JQNetworkThreadPool → JQNetworkThreadPool) (h : b ≠ a) :
    (g.onPool a f).heap[b]? = g.heap[b]? := by
  cases hc : g.heap[a]? with
  | none => simp [onPool, modify, hc]
  | some cell => simp [onPool, modify, hc, store, List.getElem?_set_ne (Ne.symm h)]

end Process

/-- C7: shutdown by the destructor.  For a server `t` that was never started
the destructor changes neither the server nor the process (no task is
posted), and destroying its members releases nothing.  For a started server
`s` the destructor posts one blocking task to the accept pool, which closes
and releases the listening socket, then one blocking task to every worker of
the socket pool, which resets that thread's ConnectPool entry; afterwards the
server holds no listening socket and no ConnectPool. -/
theorem destructor_shuts_down (t s : JQNetworkServer) (g0 g : Process) (accept socket : Nat)
    (ht : t.notStarted = true) (hs : s.startedIn g = true)
    (h1 : s.serverThreadPool_ = some accept) (h2 : s.socketThreadPool_ = some socket) :
    (destructor t g0 = some (t, g0) ∧ destroy t g0 = some g0) ∧
    ∃ s1 g1, destructor s g = some (s1, g1) ∧
      g1 = (g.onPool accept (fun pool => pool.waitRun (Task.close s.self))).onPool socket
        (fun pool => pool.waitRunEach (Task.clearConnectPool s.self)) ∧
      (accept ≠ socket →
        g1.postedOn accept = g.postedOn accept ++ [⟨Task.close s.self, none, true⟩] ∧
        g1.postedOn socket = g.postedOn socket ++
          (List.range (g.threadCount socket)).map
            (fun i => ⟨Task.clearConnectPool s.self, some i, true⟩)) ∧
      (∀ b : Nat, b ≠ accept → b ≠ socket → g1.postedOn b = g.postedOn b) ∧
      (∀ (env : Env) (thread : QThread),
        Task.execute env s thread (Task.close s.self) =
          some ({ s with tcpServer_ := none }, [Event.close])) ∧
      (∀ (env : Env) (s0 : JQNetworkServer) (thread : QThread),
        ∃ s2, Task.execute env s0 thread (Task.clearConnectPool s.self) =
            some (s2, [Event.clearConnectPool thread]) ∧
          QMap.value s2.connectPools_ thread = some none) ∧
      s1.tcpServer_ = none ∧
      (∀ (thread : QThread) (cp : JQNetworkConnectPool),
        QMap.value s1.connectPools_ thread ≠ some (some cp)) := by
  refine ⟨destructor_not_started t g0 ht, ?_⟩
  simp only [startedIn, h1, h2, Bool.and_eq_true, decide_eq_true_eq, List.all_eq_true] at hs
  obtain ⟨hsome, ⟨l1, l2⟩, hkeys⟩ := hs
  obtain ⟨cellA, hA⟩ : ∃ c, g.heap[accept]? = some c := ⟨g.heap[accept], List.getElem?_eq_getElem l1⟩
  obtain ⟨cellS, hS⟩ : ∃ c, g.heap[socket]? = some c := ⟨g.heap[socket], List.getElem?_eq_getElem l2⟩
  have hc := onEachThread_clearConnectPool socket (closeTask s)
    (((g.onPool accept (fun pool => pool.waitRun (Task.close s.self))).onPool socket
      (fun pool => pool.waitRunEach (Task.clearConnectPool s.self))).threadCount socket)
  obtain ⟨-, -, -, -, c5, -, c7⟩ := hc
  refine ⟨_, _, destructor_of_started s g accept socket hsome h1 h2 l1 l2, rfl, ?_, ?_, ?_, ?_,
    ?_, ?_⟩
  · intro hne
    constructor
    · rw [Process.postedOn_onPool_other _ socket accept _ hne,
        Process.postedOn_onPool_self g accept cellA _ hA]
      simp [Process.postedOn, hA, JQNetworkThreadPool.waitRun]
    · have hS1 : (g.onPool accept
          (fun pool => pool.waitRun (Task.close s.self))).heap[socket]? = some cellS := by
        rw [Process.getElem?_onPool_other g accept socket _ (Ne.symm hne)]
        exact hS
      rw [Process.postedOn_onPool_self _ socket cellS _ hS1]
      simp [Process.postedOn, Process.threadCount, hS, JQNetworkThreadPool.waitRunEach]
  · intro b hb1 hb2
    rw [Process.postedOn_onPool_other _ socket b _ hb2,
      Process.postedOn_onPool_other _ accept b _ hb1]
  · intro env thread
    cases hts : s.tcpServer_ with
    | none => simp [hts] at hsome
    | some x => simp [Task.execute, hts, closeTask]
  · intro env s0 thread
    refine ⟨_, rfl, ?_⟩
    simp only [clearConnectPoolTask]
    exact QMap.value_set_self _ _ _
  · rw [c5]
    rfl
  · intro thread cp hv
    rw [c7 thread, threadCount_after_shutdown_posts] at hv
    by_cases q : thread.1 = socket ∧ thread.2 < g.threadCount socket
    · rw [if_pos q] at hv
      cases hv
    · rw [if_neg q] at hv
      have hmem := QMap.mem_of_value _ _ _ hv
      have := hkeys (thread, some cp) hmem
      exact q this

/-- C7, at a server that was never started and at server A started in a new process. -/
theorem destructor_shuts_down_witness :
    (Example.serverB.notStarted = true ∧
      Example.startedA.2.1.startedIn Example.startedA.2.2 = true ∧
      Example.startedA.2.1.serverThreadPool_ = some 0 ∧
      Example.startedA.2.1.socketThreadPool_ = some 1) ∧
    destructor Example.serverB Process.initial = some (Example.serverB, Process.initial) ∧
    (destructor Example.startedA.2.1 Example.startedA.2.2).map (fun r => r.1.tcpServer_) =
      some none ∧
    (destructor Example.startedA.2.1 Example.startedA.2.2).map (fun r => r.1.connectPools_) =
      some [((1, 0), none), ((1, 1), none)] ∧
    (destructor Example.startedA.2.1 Example.startedA.2.2).map (fun r => r.2.postedOn 0) =
      some [⟨Task.listen 1, none, true⟩, ⟨Task.close 1, none, true⟩] := by
  obtain ⟨⟨h0, -⟩, s1, g1, hd, -, hp, -, -, -, ht, -⟩ :=
    destructor_shuts_down Example.serverB Example.startedA.2.1 Process.initial
      Example.startedA.2.2 0 1 (by decide) (by decide) (by decide) (by decide)
  refine ⟨⟨by decide, by decide, by decide, by decide⟩, h0, ?_, by decide, ?_⟩
  · rw [hd]
    simp only [Option.map_some', ht]
  · rw [hd]
    simp only [Option.map_some']
    rw [(hp (by decide)).1]
    decide

/-! ## `begin` establishes what the destructor relies on -/

namespace JQNetworkServer

theorem onEachThread_createConnectPool_keys (a : Nat) (s : JQNetworkServer) (n : Nat) :
    ∀ e ∈ (onEachThread a n createConnectPoolTask s).connectPools_,
      e ∈ s.connectPools_ ∨ (e.1.1 = a ∧ e.1.2 < n) := by
  induction n with
  | zero =>
    intro e he
    exact Or.inl (by simpa [onEachThread] using he)
  | succ n ih =>
    intro e he
    rw [onEachThread_succ] at he
    simp only [createConnectPoolTask] at he
    rcases QMap.mem_set _ _ _ _ he with h | h
    · rcases ih e h with h1 | h1
      · exact Or.inl h1
      · exact Or.inr ⟨h1.1, by omega⟩
    · subst h
      exact Or.inr ⟨rfl, by simp⟩

/-- After `begin`, whether or not `listen` succeeded, a server that had not
been started is a started server of the resulting process. -/
theorem begin_startedIn (env : Env) (s : JQNetworkServer) (g : Process)
    (hs : s.notStarted = true) :
    (begin env s g).2.1.startedIn (begin env s g).2.2 = true := by
  obtain ⟨a1, a2, a3, s1, s2, -, ht, -, -, -, -, l1, l2, -⟩ := begin_spec env s g hs
  simp only [startedIn, ht, s1, s2, l1, l2, Bool.true_and, decide_True, List.all_eq_true,
    Bool.and_eq_true, decide_eq_true_eq]
  have hs0 := hs
  simp only [notStarted, Bool.and_eq_true, Option.isNone_iff_eq_none, List.isEmpty_iff] at hs0
  obtain ⟨⟨⟨⟨-, h1⟩, h2⟩, h3⟩, hempty⟩ := hs0
  obtain ⟨b1, b2, b3, es, -⟩ := acquirePools_spec env s g h1 h2 h3
  have hu := acquirePools_unchanged env s g
  have e2 : (acquirePools env s g).1.socketThreadPool_ = some b2 := by rw [es]
  cases hl : env.listen s.serverSettings_.listenAddress s.serverSettings_.listenPort with
  | false =>
    rw [begin_of_listen_failed env s g hl]
    intro e he
    simp only [hu.2.2.2.2.2.1, hempty, List.not_mem_nil] at he
  | true =>
    rw [begin_of_listen_succeeded env s g hl] at s2 ⊢
    rw [(onEachThread_createConnectPool _ _ _).2.2.2.2.2.1] at s2
    simp only [e2, held] at s2 ⊢
    obtain rfl : b2 = a2 := Option.some.inj s2
    intro e he
    rcases onEachThread_createConnectPool_keys _ _ _ e he with h | h
    · simp only [hu.2.2.2.2.2.1, hempty, List.not_mem_nil] at h
    · refine ⟨h.1, ?_⟩
      rw [Process.threadCount_onPool _ b2 b2
        (fun pool => pool.waitRunEach (Task.createConnectPool s.self)) (fun pool => rfl)]
      exact h.2

end JQNetworkServer

end JQNetwork
